import Mathlib

/-
  Verification of the production-allocation core of `Solver.py`
  (`solve_production_problem`).

  The embedding models:
  * the sparse input mappings (demand, line_capacity, production_rate) as
    association lists with Python-dict semantics (unique keys; `get` with
    default; in-place insertion),
  * float values as rationals, with `WithTop ℚ` for capacities so that the
    `float("inf")` fallback capacity is representable,
  * the external LP solver as an arbitrary assignment `X` of hours to
    (period, category, line, product) quadruples, constrained by the
    feasibility predicate read off the Pyomo model construction
    (`demand_rule`, `capacity_rule`) and, where needed, by optimality of
    the `minimize total hours` objective,
  * the result extraction, fallback redistribution, aggregation and the
    capacity/demand reporting loops as list programs.

  Python's `sorted` on strings is modelled by an insertion sort over
  code-point lexicographic order (`strLeb`), which agrees with Python's
  string comparison.
-/

namespace Solver

/-- Keys of the demand / capacity dictionaries: (Period, Category, Product)
resp. (Period, Category, Line). -/
abbrev K3 := String × String × String

/-- Keys of the production-rate dictionary and of the decision variable:
(Period, Category, Line, Product). -/
abbrev K4 := String × String × String × String

/-- The `demand` and `production_rate` dictionaries: finite maps to rationals. -/
abbrev QMap3 := List (K3 × ℚ)

abbrev QMap4 := List (K4 × ℚ)

/-- The `line_capacity` dictionary: values may be `float("inf")`, modelled by `⊤`. -/
abbrev CapMap := List (K3 × WithTop ℚ)

/-- Python `dict.get(k)`: value at the key, if present (first match). -/
def dget {κ α : Type} [DecidableEq κ] : List (κ × α) → κ → Option α
  | [], _ => none
  | e :: es, k => if e.1 = k then some e.2 else dget es k

/-- Python `d[k] = v`: replace the value at an existing key, else append. -/
def dset {κ α : Type} [DecidableEq κ] : List (κ × α) → κ → α → List (κ × α)
  | [], k, v => [(k, v)]
  | e :: es, k, v => if e.1 = k then (k, v) :: es else e :: dset es k v

theorem dget_dset_self {κ α : Type} [DecidableEq κ] (m : List (κ × α)) (k : κ) (v : α) :
    dget (dset m k v) k = some v := by
  induction m with
  | nil => simp [dget, dset]
  | cons e es ih =>
    by_cases h : e.1 = k
    · simp [dget, dset, h]
    · simp [dget, dset, h, ih]

theorem dget_dset_ne {κ α : Type} [DecidableEq κ] (m : List (κ × α)) (k k' : κ) (v : α)
    (h : k' ≠ k) : dget (dset m k v) k' = dget m k' := by
  induction m with
  | nil => simp [dget, dset, Ne.symm h]
  | cons e es ih =>
    by_cases he : e.1 = k
    · subst he
      simp [dget, dset, Ne.symm h]
    · simp [dget, dset, he, ih]

theorem mem_dset {κ α : Type} [DecidableEq κ] (m : List (κ × α)) (k : κ) (v : α) :
    ∀ x ∈ dset m k v, x ∈ m ∨ x = (k, v) := by
  induction m with
  | nil =>
    intro x hx
    simp only [dset] at hx
    right
    simpa using hx
  | cons e es ih =>
    intro x hx
    by_cases h : e.1 = k
    · simp only [dset, if_pos h] at hx
      rcases List.mem_cons.1 hx with hx | hx
      · right; exact hx
      · left; exact List.mem_cons_of_mem _ hx
    · simp only [dset, if_neg h] at hx
      rcases List.mem_cons.1 hx with hx | hx
      · left; exact hx ▸ List.mem_cons_self _ _
      · rcases ih x hx with h' | h'
        · left; exact List.mem_cons_of_mem _ h'
        · right; exact h'

theorem dget_mem {κ α : Type} [DecidableEq κ] (m : List (κ × α)) (k : κ) (v : α)
    (h : dget m k = some v) : (k, v) ∈ m := by
  induction m with
  | nil => simp [dget] at h
  | cons e es ih =>
    by_cases he : e.1 = k
    · simp only [dget, if_pos he] at h
      cases h
      subst he
      simp
    · simp only [dget, if_neg he] at h
      exact List.mem_cons_of_mem _ (ih h)

/-- Code-point comparison of character lists, as Python compares strings. -/
def strLeAux : List Char → List Char → Bool
  | [], _ => true
  | _ :: _, [] => false
  | a :: as, b :: bs =>
    if a.toNat < b.toNat then true
    else if b.toNat < a.toNat then false
    else strLeAux as bs

/-- Python string `<=`. -/
def strLeb (a b : String) : Bool := strLeAux a.data b.data

/-- One step of insertion sort. -/
def insertStr (s : String) : List String → List String
  | [] => [s]
  | t :: ts => if strLeb s t then s :: t :: ts else t :: insertStr s ts

/-- Python `sorted` on a list of strings (stable ascending sort). -/
def sortStrs : List String → List String
  | [] => []
  | s :: ss => insertStr s (sortStrs ss)

theorem mem_insertStr (s : String) (l : List String) :
    ∀ x, x ∈ insertStr s l ↔ x = s ∨ x ∈ l := by
  induction l with
  | nil => simp [insertStr]
  | cons t ts ih =>
    intro x
    by_cases h : strLeb s t
    · simp [insertStr, h]
    · simp only [insertStr, h, Bool.false_eq_true, if_false, List.mem_cons, ih x]
      tauto

theorem mem_sortStrs (l : List String) : ∀ x, x ∈ sortStrs l ↔ x ∈ l := by
  induction l with
  | nil => simp [sortStrs]
  | cons s ss ih =>
    intro x
    simp [sortStrs, mem_insertStr, ih x]

theorem nodup_insertStr (s : String) (l : List String) (hs : s ∉ l) (h : l.Nodup) :
    (insertStr s l).Nodup := by
  induction l with
  | nil => simp [insertStr]
  | cons t ts ih =>
    by_cases hle : strLeb s t
    · simp only [insertStr, hle, if_true]
      exact List.nodup_cons.2 ⟨hs, h⟩
    · simp only [insertStr, hle, Bool.false_eq_true, if_false]
      rcases List.nodup_cons.1 h with ⟨ht, hts⟩
      refine List.nodup_cons.2 ⟨?_, ih (fun hm => hs (List.mem_cons_of_mem _ hm)) hts⟩
      intro hmem
      rcases (mem_insertStr s ts t).1 hmem with h' | h'
      · exact hs (h' ▸ List.mem_cons_self _ _)
      · exact ht h'

theorem nodup_sortStrs (l : List String) (h : l.Nodup) : (sortStrs l).Nodup := by
  induction l with
  | nil => simp [sortStrs]
  | cons s ss ih =>
    rcases List.nodup_cons.1 h with ⟨hs, hss⟩
    exact nodup_insertStr s (sortStrs ss) (fun hm => hs ((mem_sortStrs ss s).1 hm)) (ih hss)

/-- Python `sorted(list(set(l)))`. -/
def sortedDedup (l : List String) : List String := sortStrs l.dedup

theorem mem_sortedDedup (l : List String) (x : String) : x ∈ sortedDedup l ↔ x ∈ l := by
  rw [sortedDedup, mem_sortStrs, List.mem_dedup]

theorem nodup_sortedDedup (l : List String) : (sortedDedup l).Nodup :=
  nodup_sortStrs _ (List.nodup_dedup l)

/-- Python `Periods = sorted(list(set(p for p, _, _ in demand)))`. -/
def Periods (demand : QMap3) : List String := sortedDedup (demand.map (fun e => e.1.1))

/-- Python `Categories = sorted(list(set(c for _, c, _ in demand)))`. -/
def Categories (demand : QMap3) : List String := sortedDedup (demand.map (fun e => e.1.2.1))

/-- Python `Products = sorted(list(set(prod for _, _, prod in demand)))`. -/
def Products (demand : QMap3) : List String := sortedDedup (demand.map (fun e => e.1.2.2))

/-- Python `Lines = sorted(list(set(line for _, _, line in line_capacity)))`,
before the fallback line is appended. -/
def realLines (line_capacity : CapMap) : List String :=
  sortedDedup (line_capacity.map (fun e => e.1.2.2))

/-- Python `fictitious_line = "Fallback_Line"`. -/
def fictitious_line : String := "Fallback_Line"

/-- The Python list `Lines` after `Lines.append(fictitious_line)`; the result
extraction loop iterates over this list. -/
def linesList (line_capacity : CapMap) : List String :=
  realLines line_capacity ++ [fictitious_line]

/-- The Pyomo set `model.LINES` built from `Lines`: set semantics, so
duplicates (possible if the input capacity already mentions the fallback
line) are collapsed. -/
def modelLines (line_capacity : CapMap) : List String :=
  (linesList line_capacity).dedup

/-- Python `production_rate[(period, category, fictitious_line, product)] = 0.01`
for every demand key. -/
def augmentRate (demand : QMap3) (production_rate : QMap4) : QMap4 :=
  demand.foldl
    (fun m e => dset m (e.1.1, e.1.2.1, fictitious_line, e.1.2.2) (1 / 100)) production_rate

/-- Python `line_capacity[(period, category, fictitious_line)] = float("inf")` for
every (period, category) pair appearing in demand. -/
def augmentCapacity (demand : QMap3) (line_capacity : CapMap) : CapMap :=
  ((demand.map (fun e => (e.1.1, e.1.2.1))).dedup).foldl
    (fun m pc => dset m (pc.1, pc.2, fictitious_line) ⊤) line_capacity

/-- Python `production_rate.get(k, 0)` on the augmented dictionary. -/
def rateGet (production_rate : QMap4) (k : K4) : ℚ := (dget production_rate k).getD 0

/-- Python `demand.get(k, 0)`. -/
def demandGet (demand : QMap3) (k : K3) : ℚ := (dget demand k).getD 0

/-- Python `line_capacity.get(k, 0)` on the augmented dictionary. -/
def capGet (line_capacity : CapMap) (k : K3) : WithTop ℚ := (dget line_capacity k).getD 0

/-- The left-hand side of `demand_rule`: `sum(X[p,c,l,prod] *
production_rate.get((p,c,l,prod), 0) for l in m.LINES)`. -/
def demandLhs (demand : QMap3) (line_capacity : CapMap) (production_rate : QMap4)
    (X : K4 → ℚ) (p c prod : String) : ℚ :=
  ((modelLines line_capacity).map
    (fun l => X (p, c, l, prod) * rateGet (augmentRate demand production_rate) (p, c, l, prod))).sum

/-- The left-hand side of `capacity_rule`: `sum(X[p,c,l,prod] for prod in
m.PRODUCTS if (p,c,l,prod) in production_rate)`. -/
def capacityLhs (demand : QMap3) (production_rate : QMap4)
    (X : K4 → ℚ) (p c l : String) : ℚ :=
  (((Products demand).filter
      (fun prod => (dget (augmentRate demand production_rate) (p, c, l, prod)).isSome)).map
    (fun prod => X (p, c, l, prod))).sum

/-- A variable assignment satisfies the constructed Pyomo model: the
variables are non-negative and `demand_rule` / `capacity_rule` hold at every
index of their constraint sets. -/
def Feasible (demand : QMap3) (line_capacity : CapMap) (production_rate : QMap4)
    (X : K4 → ℚ) : Prop :=
  (∀ p ∈ Periods demand, ∀ c ∈ Categories demand, ∀ l ∈ modelLines line_capacity,
    ∀ prod ∈ Products demand, 0 ≤ X (p, c, l, prod)) ∧
  (∀ p ∈ Periods demand, ∀ c ∈ Categories demand, ∀ prod ∈ Products demand,
    demandGet demand (p, c, prod) ≤ demandLhs demand line_capacity production_rate X p c prod) ∧
  (∀ p ∈ Periods demand, ∀ c ∈ Categories demand, ∀ l ∈ modelLines line_capacity,
    (capacityLhs demand production_rate X p c l : WithTop ℚ) ≤
      capGet (augmentCapacity demand line_capacity) (p, c, l))

/-- The objective value: total hours over the full variable index set. -/
def totalHours (demand : QMap3) (line_capacity : CapMap) (X : K4 → ℚ) : ℚ :=
  ((Periods demand).map (fun p =>
    ((Categories demand).map (fun c =>
      ((modelLines line_capacity).map (fun l =>
        ((Products demand).map (fun prod => X (p, c, l, prod))).sum)).sum)).sum)).sum

/-- The assignment is what the LP solver returns: feasible and of minimal
total hours among feasible assignments. -/
def IsOptimal (demand : QMap3) (line_capacity : CapMap) (production_rate : QMap4)
    (X : K4 → ℚ) : Prop :=
  Feasible demand line_capacity production_rate X ∧
  ∀ Y, Feasible demand line_capacity production_rate Y →
    totalHours demand line_capacity X ≤ totalHours demand line_capacity Y

/-- One row of the allocation DataFrames: columns Period, Category, Line,
Product, Hours, Kg_Produced. -/
structure Row where
  period : String
  category : String
  line : String
  product : String
  hours : ℚ
  kg : ℚ
deriving DecidableEq

/-- The grouping key of a row. -/
def rowKey (r : Row) : K4 := (r.period, r.category, r.line, r.product)

/-- The table `results_df`: one record per variable with `val > 0`, in the nested loop
order `for p in Periods: for c in Categories: for l in Lines: for prod in
Products`, with `kgs = val * production_rate.get((p,c,l,prod), 0)`.
(`val` is never `None` here since the assignment is total, so the Python
guard `if val and val > 0` is `val > 0`.) -/
def rawRow (demand : QMap3) (production_rate : QMap4) (X : K4 → ℚ)
    (p c l prod : String) : Row :=
  ⟨p, c, l, prod, X (p, c, l, prod),
    X (p, c, l, prod) * rateGet (augmentRate demand production_rate) (p, c, l, prod)⟩

def results_df (demand : QMap3) (line_capacity : CapMap) (production_rate : QMap4)
    (X : K4 → ℚ) : List Row :=
  (Periods demand).flatMap (fun p =>
    (Categories demand).flatMap (fun c =>
      (linesList line_capacity).flatMap (fun l =>
        (Products demand).flatMap (fun prod =>
          if 0 < X (p, c, l, prod) then [rawRow demand production_rate X p c l prod]
          else []))))

/-- Python `fallback_rows = results_df[results_df["Line"] == fallback_name]`. -/
def fallback_rows (demand : QMap3) (line_capacity : CapMap) (production_rate : QMap4)
    (X : K4 → ℚ) : List Row :=
  (results_df demand line_capacity production_rate X).filter
    (fun r => r.line = fictitious_line)

/-- Python `non_fallback_rows = results_df[results_df["Line"] != fallback_name]`. -/
def non_fallback_rows (demand : QMap3) (line_capacity : CapMap) (production_rate : QMap4)
    (X : K4 → ℚ) : List Row :=
  (results_df demand line_capacity production_rate X).filter
    (fun r => ¬ r.line = fictitious_line)

/-- Python `eligible_lines = [l for l in Lines if (p, c, l, prod) in production_rate
and l != fallback_name]` (on the augmented rate dictionary). -/
def eligible_lines (demand : QMap3) (line_capacity : CapMap) (production_rate : QMap4)
    (p c prod : String) : List String :=
  (linesList line_capacity).filter
    (fun l => (dget (augmentRate demand production_rate) (p, c, l, prod)).isSome ∧
      ¬ l = fictitious_line)

/-- The rows appended by the redistribution loop for one fallback row:
if there is no eligible line the row is skipped (`continue`); otherwise the
produced mass is split equally and, for each eligible line whose rate is
positive (`if rate and rate > 0`), a row with `Hours = equal_kgs / rate` is
appended. -/
def redistributed (demand : QMap3) (line_capacity : CapMap) (production_rate : QMap4)
    (row : Row) : List Row :=
  let p := row.period
  let c := row.category
  let prod := row.product
  let elig := eligible_lines demand line_capacity production_rate p c prod
  if elig = [] then []
  else
    elig.flatMap (fun l =>
      let equal_kgs := row.kg / (elig.length : ℚ)
      let rate := rateGet (augmentRate demand production_rate) (p, c, l, prod)
      if 0 < rate then [⟨p, c, l, prod, equal_kgs / rate, equal_kgs⟩] else [])

/-- The list `adjusted_rows`: all redistribution rows over the fallback rows. -/
def adjusted_rows (demand : QMap3) (line_capacity : CapMap) (production_rate : QMap4)
    (X : K4 → ℚ) : List Row :=
  (fallback_rows demand line_capacity production_rate X).flatMap
    (redistributed demand line_capacity production_rate)

/-- Python `groupby(["Period", "Category", "Line", "Product"]).sum()`: one row per
distinct key, with summed Hours and Kg_Produced.  (pandas orders groups by
key; the claims are insensitive to row order, so the first-occurrence order
of `dedup` is used.) -/
def aggregate (rows : List Row) : List Row :=
  ((rows.map rowKey).dedup).map (fun k =>
    ⟨k.1, k.2.1, k.2.2.1, k.2.2.2,
      ((rows.filter (fun r => rowKey r = k)).map (fun r => r.hours)).sum,
      ((rows.filter (fun r => rowKey r = k)).map (fun r => r.kg)).sum⟩)

/-- The table `results_df_adjusted`: non-fallback rows plus redistribution rows,
aggregated by (Period, Category, Line, Product). -/
def results_df_adjusted (demand : QMap3) (line_capacity : CapMap) (production_rate : QMap4)
    (X : K4 → ℚ) : List Row :=
  aggregate (non_fallback_rows demand line_capacity production_rate X ++
    adjusted_rows demand line_capacity production_rate X)

/-- Python `total_demand_hours` for one capacity entry `(p, c, l) -> capacity`:
the final table is filtered on Period and Line only, and each row
contributes `produced_kg / rate` where the rate is looked up at
`(p, c, l, prod)` with the entry's own category, contributing zero when the
rate is absent or not positive. -/
def total_demand_hours (demand : QMap3) (production_rate : QMap4)
    (tbl : List Row) (p c l : String) : ℚ :=
  ((tbl.filter (fun r => r.period = p ∧ r.line = l)).foldl
    (fun acc r =>
      let rate := rateGet (augmentRate demand production_rate) (p, c, l, r.product)
      if 0 < rate then acc + r.kg / rate else acc + 0) 0)

/-- The constant `1e-9`. -/
def eps : ℚ := 1 / 1000000000

/-- Division of a possibly-infinite capacity by a (positive) rational:
`inf / x = inf`, as for Python floats. -/
def wdiv (a : WithTop ℚ) (d : ℚ) : WithTop ℚ := a.map (fun q => q / d)

theorem wdiv_coe (q d : ℚ) : wdiv ((q : ℚ) : WithTop ℚ) d = ((q / d : ℚ) : WithTop ℚ) := rfl

theorem wdiv_top (d : ℚ) : wdiv ⊤ d = ⊤ := rfl

/-- One record of the Capacity/Demand table, built from one item of the
(augmented) `line_capacity` dictionary: the ratio is
`capacity / (total_demand_hours + 1e-9)` if `total_demand_hours > 0`, else
NaN (modelled as `none`). -/
def utilEntry (demand : QMap3) (production_rate : QMap4) (tbl : List Row)
    (e : K3 × WithTop ℚ) : K3 × Option (WithTop ℚ) :=
  let tdh := total_demand_hours demand production_rate tbl e.1.1 e.1.2.1 e.1.2.2
  (e.1, if 0 < tdh then some (wdiv e.2 (tdh + eps)) else none)

/-- The table `capacity_demand_ratio_df`: one record per item of the (augmented)
`line_capacity` dictionary. -/
def capacity_demand_df (demand : QMap3) (line_capacity : CapMap) (production_rate : QMap4)
    (X : K4 → ℚ) : List (K3 × Option (WithTop ℚ)) :=
  (augmentCapacity demand line_capacity).map
    (utilEntry demand production_rate (results_df_adjusted demand line_capacity production_rate X))

/-- Failures of the external LP solver call. -/
inductive SolverFailure : Type
  | infeasible : SolverFailure
  | timeout : SolverFailure
  | numericalError : SolverFailure
  | noAssignment : SolverFailure
deriving DecidableEq

/-- Modelled from the spec: the external LP solver adapter (pyomo /
appsi_highs, outside this repository) either returns an assignment for every
decision variable or raises a solver-level failure; `solve_production_problem`
calls it without any exception handling, so a raised failure propagates to
the caller unchanged and otherwise the three tables are computed from the
returned assignment and returned. -/
def solve_production_problem (demand : QMap3) (line_capacity : CapMap)
    (production_rate : QMap4) (outcome : Except SolverFailure (K4 → ℚ)) :
    Except SolverFailure (List Row × List (K3 × Option (WithTop ℚ)) × List Row) :=
  match outcome with
  | .error e => .error e
  | .ok X =>
    .ok (results_df_adjusted demand line_capacity production_rate X,
      capacity_demand_df demand line_capacity production_rate X,
      results_df demand line_capacity production_rate X)

end Solver

namespace Solver

/-! ### Generic lemmas about the dictionary-mutation loops -/

theorem dget_foldl_dset_ne {β κ α : Type} [DecidableEq κ] (f : β → κ) (v : β → α)
    (l : List β) (acc : List (κ × α)) (k : κ) (h : ∀ b ∈ l, f b ≠ k) :
    dget (l.foldl (fun m b => dset m (f b) (v b)) acc) k = dget acc k := by
  induction l generalizing acc with
  | nil => rfl
  | cons b bs ih =>
    rw [List.foldl_cons, ih _ (fun b' hb' => h b' (List.mem_cons_of_mem _ hb')),
      dget_dset_ne _ _ _ _ (Ne.symm (h b (List.mem_cons_self _ _)))]

theorem dget_foldl_dset_const {β κ α : Type} [DecidableEq κ] (f : β → κ) (c : α)
    (l : List β) (acc : List (κ × α)) (k : κ)
    (h : (∃ b ∈ l, f b = k) ∨ dget acc k = some c) :
    dget (l.foldl (fun m b => dset m (f b) c) acc) k = some c := by
  induction l generalizing acc with
  | nil =>
    rcases h with ⟨b, hb, _⟩ | h
    · exact absurd hb (List.not_mem_nil b)
    · exact h
  | cons b bs ih =>
    rw [List.foldl_cons]
    rcases h with ⟨b', hb', hfb'⟩ | h
    · rcases List.mem_cons.1 hb' with hb' | hb'
      · subst hb'
        refine ih _ (Or.inr ?_)
        rw [hfb']
        exact dget_dset_self _ _ _
      · exact ih _ (Or.inl ⟨b', hb', hfb'⟩)
    · refine ih _ (Or.inr ?_)
      by_cases hk : f b = k
      · rw [hk, dget_dset_self]
      · rw [dget_dset_ne _ _ _ _ (Ne.symm hk)]
        exact h

theorem mem_foldl_dset {β κ α : Type} [DecidableEq κ] (f : β → κ) (v : β → α)
    (l : List β) (acc : List (κ × α)) :
    ∀ x ∈ l.foldl (fun m b => dset m (f b) (v b)) acc,
      x ∈ acc ∨ ∃ b ∈ l, x = (f b, v b) := by
  induction l generalizing acc with
  | nil =>
    intro x hx
    exact Or.inl hx
  | cons b bs ih =>
    intro x hx
    rw [List.foldl_cons] at hx
    rcases ih _ x hx with hx' | ⟨b', hb', hx'⟩
    · rcases mem_dset _ _ _ x hx' with hx'' | hx''
      · exact Or.inl hx''
      · exact Or.inr ⟨b, List.mem_cons_self _ _, hx''⟩
    · exact Or.inr ⟨b', List.mem_cons_of_mem _ hb', hx'⟩

/-! ### The feasibility augmentation -/

theorem augmentRate_at_demand_key (demand : QMap3) (production_rate : QMap4)
    (k : K3) (hk : k ∈ demand.map Prod.fst) :
    dget (augmentRate demand production_rate) (k.1, k.2.1, fictitious_line, k.2.2) =
      some (1 / 100) := by
  rcases List.mem_map.1 hk with ⟨e, he, hek⟩
  refine dget_foldl_dset_const (fun e => (e.1.1, e.1.2.1, fictitious_line, e.1.2.2)) (1 / 100)
    demand production_rate (k.1, k.2.1, fictitious_line, k.2.2) (Or.inl ⟨e, he, ?_⟩)
  subst hek
  rfl

theorem augmentRate_frame (demand : QMap3) (production_rate : QMap4)
    (p c l prod : String) (hl : l ≠ fictitious_line) :
    dget (augmentRate demand production_rate) (p, c, l, prod) =
      dget production_rate (p, c, l, prod) := by
  refine dget_foldl_dset_ne _ _ _ _ _ ?_
  intro e _ he
  apply hl
  have := congrArg (fun k : K4 => k.2.2.1) he
  simpa using this.symm

theorem augmentCapacity_at_demand_key (demand : QMap3) (line_capacity : CapMap)
    (k : K3) (hk : k ∈ demand.map Prod.fst) :
    dget (augmentCapacity demand line_capacity) (k.1, k.2.1, fictitious_line) = some ⊤ := by
  rcases List.mem_map.1 hk with ⟨e, he, hek⟩
  refine dget_foldl_dset_const (fun pc => (pc.1, pc.2, fictitious_line)) (⊤ : WithTop ℚ)
    _ line_capacity (k.1, k.2.1, fictitious_line) (Or.inl ⟨(e.1.1, e.1.2.1), ?_, ?_⟩)
  · rw [List.mem_dedup]
    exact List.mem_map.2 ⟨e, he, rfl⟩
  · subst hek
    rfl

theorem augmentCapacity_frame (demand : QMap3) (line_capacity : CapMap)
    (p c l : String) (hl : l ≠ fictitious_line) :
    dget (augmentCapacity demand line_capacity) (p, c, l) = dget line_capacity (p, c, l) := by
  refine dget_foldl_dset_ne _ _ _ _ _ ?_
  intro pc _ hpc
  apply hl
  have := congrArg (fun k : K3 => k.2.2) hpc
  simpa using this.symm

theorem mem_augmentCapacity (demand : QMap3) (line_capacity : CapMap) :
    ∀ x ∈ augmentCapacity demand line_capacity,
      x ∈ line_capacity ∨ x.1.2.2 = fictitious_line ∧ x.2 = ⊤ := by
  intro x hx
  rcases mem_foldl_dset (fun pc : String × String => (pc.1, pc.2, fictitious_line)) (fun _ => ⊤)
    _ _ x hx with hx' | ⟨b, _, hx'⟩
  · exact Or.inl hx'
  · subst hx'
    exact Or.inr ⟨rfl, rfl⟩

theorem mem_augmentRate (demand : QMap3) (production_rate : QMap4) :
    ∀ x ∈ augmentRate demand production_rate,
      x ∈ production_rate ∨ x.2 = 1 / 100 := by
  intro x hx
  rcases mem_foldl_dset (fun e : K3 × ℚ => (e.1.1, e.1.2.1, fictitious_line, e.1.2.2))
    (fun _ => 1 / 100) _ _ x hx with hx' | ⟨b, _, hx'⟩
  · exact Or.inl hx'
  · subst hx'
    exact Or.inr rfl

theorem rateGet_nonneg (demand : QMap3) (production_rate : QMap4)
    (hr : ∀ e ∈ production_rate, 0 ≤ e.2) (k : K4) :
    0 ≤ rateGet (augmentRate demand production_rate) k := by
  rw [rateGet]
  cases h : dget (augmentRate demand production_rate) k with
  | none => simp
  | some v =>
    rcases mem_augmentRate demand production_rate _ (dget_mem _ _ _ h) with hm | hm
    · simpa using hr _ hm
    · have hv : v = 1 / 100 := hm
      simp only [Option.getD_some]
      rw [hv]
      norm_num

/-! ### List-sum helpers -/

theorem sum_map_flatMap {α β : Type} (l : List α) (g : α → List β) (f : β → ℚ) :
    ((l.flatMap g).map f).sum = (l.map (fun a => ((g a).map f).sum)).sum := by
  induction l with
  | nil => rfl
  | cons a as ih =>
    rw [List.flatMap_cons, List.map_append, List.sum_append, ih, List.map_cons, List.sum_cons]

theorem sum_map_filter_flatMap {α β : Type} (l : List α) (g : α → List β) (q : β → Bool)
    (f : β → ℚ) :
    (((l.flatMap g).filter q).map f).sum =
      (l.map (fun a => (((g a).filter q).map f).sum)).sum := by
  induction l with
  | nil => rfl
  | cons a as ih =>
    rw [List.flatMap_cons, List.filter_append, List.map_append, List.sum_append, ih,
      List.map_cons, List.sum_cons]

theorem sum_map_zero {α : Type} (l : List α) (f : α → ℚ) (h : ∀ x ∈ l, f x = 0) :
    (l.map f).sum = 0 := by
  induction l with
  | nil => rfl
  | cons a as ih =>
    rw [List.map_cons, List.sum_cons, h a (List.mem_cons_self _ _),
      ih (fun x hx => h x (List.mem_cons_of_mem _ hx)), add_zero]

theorem sum_map_count_one {α : Type} [DecidableEq α] (l : List α) (a : α) (f : α → ℚ)
    (h1 : l.count a = 1) (h0 : ∀ x ∈ l, x ≠ a → f x = 0) : (l.map f).sum = f a := by
  induction l with
  | nil => simp at h1
  | cons b bs ih =>
    rw [List.map_cons, List.sum_cons]
    by_cases hb : b = a
    · subst hb
      rw [List.count_cons_self] at h1
      have hz : bs.count b = 0 := by omega
      have : (bs.map f).sum = 0 := by
        refine sum_map_zero _ _ (fun x hx => ?_)
        refine h0 x (List.mem_cons_of_mem _ hx) (fun hxa => ?_)
        subst hxa
        exact (List.count_eq_zero.1 hz) hx
      rw [this, add_zero]
    · rw [List.count_cons_of_ne (Ne.symm hb)] at h1
      rw [h0 b (List.mem_cons_self _ _) hb, zero_add]
      exact ih h1 (fun x hx => h0 x (List.mem_cons_of_mem _ hx))

theorem sum_map_nonneg {α : Type} (l : List α) (f : α → ℚ) (h : ∀ x ∈ l, 0 ≤ f x) :
    0 ≤ (l.map f).sum := by
  induction l with
  | nil => simp
  | cons a as ih =>
    rw [List.map_cons, List.sum_cons]
    have := h a (List.mem_cons_self _ _)
    have := ih (fun x hx => h x (List.mem_cons_of_mem _ hx))
    linarith

theorem le_sum_map_of_mem {α : Type} (l : List α) (f : α → ℚ) (a : α) (ha : a ∈ l)
    (h : ∀ x ∈ l, 0 ≤ f x) : f a ≤ (l.map f).sum := by
  induction l with
  | nil => exact absurd ha (List.not_mem_nil a)
  | cons b bs ih =>
    rw [List.map_cons, List.sum_cons]
    rcases List.mem_cons.1 ha with hab | ha'
    · subst hab
      have := sum_map_nonneg bs f (fun x hx => h x (List.mem_cons_of_mem _ hx))
      linarith
    · have h1 := h b (List.mem_cons_self _ _)
      have h2 := ih ha' (fun x hx => h x (List.mem_cons_of_mem _ hx))
      linarith

theorem sum_map_dedup_le {α : Type} [DecidableEq α] (l : List α) (f : α → ℚ)
    (h : ∀ x ∈ l, 0 ≤ f x) : (l.dedup.map f).sum ≤ (l.map f).sum := by
  induction l with
  | nil => simp
  | cons a as ih =>
    by_cases hm : a ∈ as
    · rw [List.dedup_cons_of_mem hm, List.map_cons, List.sum_cons]
      have h1 := h a (List.mem_cons_self _ _)
      have h2 := ih (fun x hx => h x (List.mem_cons_of_mem _ hx))
      linarith
    · rw [List.dedup_cons_of_not_mem hm, List.map_cons, List.map_cons, List.sum_cons,
        List.sum_cons]
      have h2 := ih (fun x hx => h x (List.mem_cons_of_mem _ hx))
      linarith

theorem sum_map_sub {α : Type} (l : List α) (f g : α → ℚ) :
    (l.map f).sum - (l.map g).sum = (l.map (fun a => f a - g a)).sum := by
  induction l with
  | nil => simp
  | cons a as ih =>
    simp only [List.map_cons, List.sum_cons]
    linarith

theorem sum_map_congr {α : Type} (l : List α) (f g : α → ℚ) (h : ∀ x ∈ l, f x = g x) :
    (l.map f).sum = (l.map g).sum := by
  rw [List.map_congr_left h]

theorem exists_pos_of_sum_pos {α : Type} (l : List α) (f : α → ℚ)
    (h : 0 < (l.map f).sum) : ∃ x ∈ l, 0 < f x := by
  induction l with
  | nil => simp at h
  | cons a as ih =>
    rw [List.map_cons, List.sum_cons] at h
    by_cases ha : 0 < f a
    · exact ⟨a, List.mem_cons_self _ _, ha⟩
    · have : 0 < (as.map f).sum := by linarith [not_lt.1 ha]
      rcases ih this with ⟨x, hx, hfx⟩
      exact ⟨x, List.mem_cons_of_mem _ hx, hfx⟩

theorem sum_map_split_filter {α : Type} (l : List α) (q : α → Bool) (f : α → ℚ) :
    (l.map f).sum = ((l.filter q).map f).sum + ((l.filter (fun a => ¬ q a)).map f).sum := by
  induction l with
  | nil => simp
  | cons a as ih =>
    by_cases hq : q a
    · rw [List.map_cons, List.sum_cons, List.filter_cons_of_pos hq,
        List.filter_cons_of_neg (by simp [hq]), List.map_cons, List.sum_cons, ih]
      ring
    · rw [List.map_cons, List.sum_cons, List.filter_cons_of_neg (by simp [hq]),
        List.filter_cons_of_pos (by simp [hq]), List.map_cons, List.sum_cons, ih]
      ring

theorem sum_map_filter_eq_sum_ite {α : Type} (l : List α) (q : α → Bool) (f : α → ℚ) :
    ((l.filter q).map f).sum = (l.map (fun a => if q a then f a else 0)).sum := by
  induction l with
  | nil => rfl
  | cons a as ih =>
    by_cases hq : q a
    · rw [List.filter_cons_of_pos hq, List.map_cons, List.map_cons, List.sum_cons,
        List.sum_cons, ih, if_pos hq]
    · rw [List.filter_cons_of_neg hq, List.map_cons, List.sum_cons, ih, if_neg hq, zero_add]

/-! ### Characterizing sums over the raw allocation table -/

/-- Sum of Mass over the rows of a table for one (Period, Category, Product). -/
def tableMass (tbl : List Row) (p c prod : String) : ℚ :=
  ((tbl.filter (fun r => r.period = p ∧ r.category = c ∧ r.product = prod)).map
    (fun r => r.kg)).sum

/-- Sum of Hours over the rows of a table for one (Period, Category, Line). -/
def tableHours (tbl : List Row) (p c l : String) : ℚ :=
  ((tbl.filter (fun r => r.period = p ∧ r.category = c ∧ r.line = l)).map
    (fun r => r.hours)).sum

theorem sum_filter_single {β : Type} (cond : Prop) [Decidable cond] (row : β)
    (q : β → Bool) (f : β → ℚ) :
    (((if cond then [row] else []).filter q).map f).sum =
      if cond then (if q row then f row else 0) else 0 := by
  by_cases h : cond <;> by_cases hq : q row <;> simp [h, hq]

theorem sum_filter_results_df (demand : QMap3) (line_capacity : CapMap)
    (production_rate : QMap4) (X : K4 → ℚ) (q : Row → Bool) (f : Row → ℚ) :
    (((results_df demand line_capacity production_rate X).filter q).map f).sum =
      ((Periods demand).map (fun p =>
        ((Categories demand).map (fun c =>
          ((linesList line_capacity).map (fun l =>
            ((Products demand).map (fun prod =>
              if 0 < X (p, c, l, prod) then
                (if q (rawRow demand production_rate X p c l prod) then
                  f (rawRow demand production_rate X p c l prod) else 0)
              else 0)).sum)).sum)).sum)).sum := by
  rw [results_df, sum_map_filter_flatMap]
  refine sum_map_congr _ _ _ (fun p _ => ?_)
  rw [sum_map_filter_flatMap]
  refine sum_map_congr _ _ _ (fun c _ => ?_)
  rw [sum_map_filter_flatMap]
  refine sum_map_congr _ _ _ (fun l _ => ?_)
  rw [sum_map_filter_flatMap]
  refine sum_map_congr _ _ _ (fun prod _ => ?_)
  exact sum_filter_single _ _ _ _

theorem mem_results_df (demand : QMap3) (line_capacity : CapMap)
    (production_rate : QMap4) (X : K4 → ℚ) :
    ∀ row ∈ results_df demand line_capacity production_rate X,
      row.period ∈ Periods demand ∧ row.category ∈ Categories demand ∧
      row.line ∈ linesList line_capacity ∧ row.product ∈ Products demand ∧
      0 < X (rowKey row) ∧ row.hours = X (rowKey row) ∧
      row.kg = X (rowKey row) * rateGet (augmentRate demand production_rate) (rowKey row) := by
  intro row hrow
  rw [results_df] at hrow
  rcases List.mem_flatMap.1 hrow with ⟨p, hp, hrow⟩
  rcases List.mem_flatMap.1 hrow with ⟨c, hc, hrow⟩
  rcases List.mem_flatMap.1 hrow with ⟨l, hl, hrow⟩
  rcases List.mem_flatMap.1 hrow with ⟨prod, hprod, hrow⟩
  by_cases hx : 0 < X (p, c, l, prod)
  · rw [if_pos hx] at hrow
    rcases List.mem_singleton.1 hrow with rfl
    exact ⟨hp, hc, hl, hprod, hx, rfl, rfl⟩
  · rw [if_neg hx] at hrow
    exact absurd hrow (List.not_mem_nil row)

theorem nodup_Periods (demand : QMap3) : (Periods demand).Nodup := nodup_sortedDedup _

theorem nodup_Categories (demand : QMap3) : (Categories demand).Nodup := nodup_sortedDedup _

theorem nodup_Products (demand : QMap3) : (Products demand).Nodup := nodup_sortedDedup _

theorem nodup_realLines (line_capacity : CapMap) : (realLines line_capacity).Nodup :=
  nodup_sortedDedup _

theorem count_linesList (line_capacity : CapMap) (l : String)
    (hl : l ∈ realLines line_capacity) (hne : l ≠ fictitious_line) :
    (linesList line_capacity).count l = 1 := by
  rw [linesList, List.count_append,
    List.count_eq_one_of_mem (nodup_realLines _) hl]
  simp [hne]

theorem tableMass_results_df (demand : QMap3) (line_capacity : CapMap)
    (production_rate : QMap4) (X : K4 → ℚ) (p c prod : String)
    (hp : p ∈ Periods demand) (hc : c ∈ Categories demand) (hprod : prod ∈ Products demand) :
    tableMass (results_df demand line_capacity production_rate X) p c prod =
      ((linesList line_capacity).map (fun l =>
        if 0 < X (p, c, l, prod) then
          X (p, c, l, prod) * rateGet (augmentRate demand production_rate) (p, c, l, prod)
        else 0)).sum := by
  rw [tableMass, sum_filter_results_df]
  refine Eq.trans (sum_map_count_one _ p _
    (List.count_eq_one_of_mem (nodup_Periods _) hp) ?_) ?_
  · intro p' _ hne
    refine sum_map_zero _ _ (fun c' _ => ?_)
    refine sum_map_zero _ _ (fun l _ => ?_)
    refine sum_map_zero _ _ (fun prod' _ => ?_)
    simp [rawRow, hne]
  refine Eq.trans (sum_map_count_one _ c _
    (List.count_eq_one_of_mem (nodup_Categories _) hc) ?_) ?_
  · intro c' _ hne
    refine sum_map_zero _ _ (fun l _ => ?_)
    refine sum_map_zero _ _ (fun prod' _ => ?_)
    simp [rawRow, hne]
  refine sum_map_congr _ _ _ (fun l _ => ?_)
  refine Eq.trans (sum_map_count_one _ prod _
    (List.count_eq_one_of_mem (nodup_Products _) hprod) ?_) ?_
  · intro prod' _ hne
    simp [rawRow, hne]
  simp [rawRow]

theorem tableHours_results_df (demand : QMap3) (line_capacity : CapMap)
    (production_rate : QMap4) (X : K4 → ℚ) (p c l : String)
    (hp : p ∈ Periods demand) (hc : c ∈ Categories demand)
    (hl1 : (linesList line_capacity).count l = 1) :
    tableHours (results_df demand line_capacity production_rate X) p c l =
      ((Products demand).map (fun prod =>
        if 0 < X (p, c, l, prod) then X (p, c, l, prod) else 0)).sum := by
  rw [tableHours, sum_filter_results_df]
  refine Eq.trans (sum_map_count_one _ p _
    (List.count_eq_one_of_mem (nodup_Periods _) hp) ?_) ?_
  · intro p' _ hne
    refine sum_map_zero _ _ (fun c' _ => ?_)
    refine sum_map_zero _ _ (fun l' _ => ?_)
    refine sum_map_zero _ _ (fun prod' _ => ?_)
    simp [rawRow, hne]
  refine Eq.trans (sum_map_count_one _ c _
    (List.count_eq_one_of_mem (nodup_Categories _) hc) ?_) ?_
  · intro c' _ hne
    refine sum_map_zero _ _ (fun l' _ => ?_)
    refine sum_map_zero _ _ (fun prod' _ => ?_)
    simp [rawRow, hne]
  refine Eq.trans (sum_map_count_one _ l _ hl1 ?_) ?_
  · intro l' _ hne
    refine sum_map_zero _ _ (fun prod' _ => ?_)
    simp [rawRow, hne]
  refine sum_map_congr _ _ _ (fun prod' _ => ?_)
  simp [rawRow]

theorem demand_key_mem (demand : QMap3) (p c prod : String) (q : ℚ)
    (hq : dget demand (p, c, prod) = some q) :
    p ∈ Periods demand ∧ c ∈ Categories demand ∧ prod ∈ Products demand := by
  have hmem : ((p, c, prod), q) ∈ demand := dget_mem _ _ _ hq
  refine ⟨?_, ?_, ?_⟩
  · rw [Periods, mem_sortedDedup]
    exact List.mem_map.2 ⟨((p, c, prod), q), hmem, rfl⟩
  · rw [Categories, mem_sortedDedup]
    exact List.mem_map.2 ⟨((p, c, prod), q), hmem, rfl⟩
  · rw [Products, mem_sortedDedup]
    exact List.mem_map.2 ⟨((p, c, prod), q), hmem, rfl⟩

theorem raw_coverage (demand : QMap3) (line_capacity : CapMap) (production_rate : QMap4)
    (X : K4 → ℚ) (hr : ∀ e ∈ production_rate, 0 ≤ e.2)
    (hfeas : Feasible demand line_capacity production_rate X)
    (p c prod : String) (q : ℚ) (hq : dget demand (p, c, prod) = some q) :
    q ≤ tableMass (results_df demand line_capacity production_rate X) p c prod := by
  obtain ⟨hp, hc, hprod⟩ := demand_key_mem demand p c prod q hq
  rw [tableMass_results_df demand line_capacity production_rate X p c prod hp hc hprod]
  have hstep1 : ((linesList line_capacity).map (fun l =>
      if 0 < X (p, c, l, prod) then
        X (p, c, l, prod) * rateGet (augmentRate demand production_rate) (p, c, l, prod)
      else 0)).sum =
      ((linesList line_capacity).map (fun l =>
        X (p, c, l, prod) * rateGet (augmentRate demand production_rate) (p, c, l, prod))).sum := by
    refine sum_map_congr _ _ _ (fun l hl => ?_)
    have hx : 0 ≤ X (p, c, l, prod) :=
      hfeas.1 p hp c hc l (List.mem_dedup.2 hl) prod hprod
    rcases lt_or_eq_of_le hx with hx' | hx'
    · rw [if_pos hx']
    · rw [← hx', if_neg (lt_irrefl 0), zero_mul]
  rw [hstep1]
  have hstep2 : ((modelLines line_capacity).map (fun l =>
      X (p, c, l, prod) * rateGet (augmentRate demand production_rate) (p, c, l, prod))).sum ≤
      ((linesList line_capacity).map (fun l =>
        X (p, c, l, prod) * rateGet (augmentRate demand production_rate) (p, c, l, prod))).sum := by
    refine sum_map_dedup_le _ _ (fun l hl => ?_)
    exact mul_nonneg (hfeas.1 p hp c hc l (List.mem_dedup.2 hl) prod hprod)
      (rateGet_nonneg demand production_rate hr _)
  have hstep3 := hfeas.2.1 p hp c hc prod hprod
  rw [demandLhs] at hstep3
  have hdg : demandGet demand (p, c, prod) = q := by rw [demandGet, hq, Option.getD_some]
  rw [hdg] at hstep3
  exact le_trans hstep3 hstep2

theorem optimal_zero (demand : QMap3) (line_capacity : CapMap) (production_rate : QMap4)
    (X : K4 → ℚ) (hopt : IsOptimal demand line_capacity production_rate X) :
    ∀ p ∈ Periods demand, ∀ c ∈ Categories demand, ∀ l ∈ modelLines line_capacity,
      ∀ prod ∈ Products demand,
        dget (augmentRate demand production_rate) (p, c, l, prod) = none →
          X (p, c, l, prod) = 0 := by
  intro p hp c hc l hl prod hprod hnone
  set key : K4 := (p, c, l, prod) with hkey
  set Y : K4 → ℚ := fun k => if k = key then 0 else X k with hY
  have hXk : 0 ≤ X key := hopt.1.1 p hp c hc l hl prod hprod
  have hrg : rateGet (augmentRate demand production_rate) key = 0 := by
    rw [rateGet, hnone, Option.getD_none]
  have hYfeas : Feasible demand line_capacity production_rate Y := by
    refine ⟨?_, ?_, ?_⟩
    · intro p' hp' c' hc' l' hl' prod' hprod'
      by_cases hk : (p', c', l', prod') = key
      · simp [hY, hk]
      · rw [hY]
        simp only [if_neg hk]
        exact hopt.1.1 p' hp' c' hc' l' hl' prod' hprod'
    · intro p' hp' c' hc' prod' hprod'
      have heq : demandLhs demand line_capacity production_rate Y p' c' prod' =
          demandLhs demand line_capacity production_rate X p' c' prod' := by
        rw [demandLhs, demandLhs]
        refine sum_map_congr _ _ _ (fun l' _ => ?_)
        by_cases hk : (p', c', l', prod') = key
        · rw [hk, hrg, mul_zero, mul_zero]
        · rw [hY]
          simp only [if_neg hk]
      rw [heq]
      exact hopt.1.2.1 p' hp' c' hc' prod' hprod'
    · intro p' hp' c' hc' l' hl'
      have heq : capacityLhs demand production_rate Y p' c' l' =
          capacityLhs demand production_rate X p' c' l' := by
        rw [capacityLhs, capacityLhs]
        refine sum_map_congr _ _ _ (fun prod' hprod' => ?_)
        have hsome := (List.mem_filter.1 hprod').2
        by_cases hk : (p', c', l', prod') = key
        · rw [hk] at hsome
          rw [hnone] at hsome
          simp at hsome
        · rw [hY]
          simp only [if_neg hk]
      rw [heq]
      exact hopt.1.2.2 p' hp' c' hc' l' hl'
  have hcost := hopt.2 Y hYfeas
  have hdiff : totalHours demand line_capacity X - totalHours demand line_capacity Y =
      ((Periods demand).map (fun p' =>
        ((Categories demand).map (fun c' =>
          ((modelLines line_capacity).map (fun l' =>
            ((Products demand).map (fun prod' =>
              X (p', c', l', prod') - Y (p', c', l', prod'))).sum)).sum)).sum)).sum := by
    rw [totalHours, totalHours, sum_map_sub]
    refine sum_map_congr _ _ _ (fun p' _ => ?_)
    rw [sum_map_sub]
    refine sum_map_congr _ _ _ (fun c' _ => ?_)
    rw [sum_map_sub]
    refine sum_map_congr _ _ _ (fun l' _ => ?_)
    rw [sum_map_sub]
  have hDnonneg : ∀ k : K4, 0 ≤ X k - Y k := by
    intro k
    by_cases hk : k = key
    · subst hk
      have hY0 : Y key = 0 := by simp [hY]
      rw [hY0, sub_zero]
      exact hXk
    · have hY0 : Y k = X k := by simp [hY, hk]
      rw [hY0]
      linarith
  have hlow : X key ≤ totalHours demand line_capacity X - totalHours demand line_capacity Y := by
    rw [hdiff]
    have h4 : X key ≤ ((Products demand).map (fun prod' =>
        X (p, c, l, prod') - Y (p, c, l, prod'))).sum := by
      have hY0 : Y (p, c, l, prod) = 0 := by simp [hY, hkey]
      have hterm : X key = X (p, c, l, prod) - Y (p, c, l, prod) := by
        rw [hY0, sub_zero, hkey]
      rw [hterm]
      exact le_sum_map_of_mem _ _ prod hprod (fun x _ => hDnonneg _)
    have h3 : ((Products demand).map (fun prod' =>
        X (p, c, l, prod') - Y (p, c, l, prod'))).sum ≤
        ((modelLines line_capacity).map (fun l' =>
          ((Products demand).map (fun prod' =>
            X (p, c, l', prod') - Y (p, c, l', prod'))).sum)).sum :=
      le_sum_map_of_mem _ _ l hl
        (fun l' _ => sum_map_nonneg _ _ (fun prod' _ => hDnonneg _))
    have h2 : ((modelLines line_capacity).map (fun l' =>
        ((Products demand).map (fun prod' =>
          X (p, c, l', prod') - Y (p, c, l', prod'))).sum)).sum ≤
        ((Categories demand).map (fun c' =>
          ((modelLines line_capacity).map (fun l' =>
            ((Products demand).map (fun prod' =>
              X (p, c', l', prod') - Y (p, c', l', prod'))).sum)).sum)).sum :=
      le_sum_map_of_mem _ _ c hc
        (fun c' _ => sum_map_nonneg _ _
          (fun l' _ => sum_map_nonneg _ _ (fun prod' _ => hDnonneg _)))
    have h1 : ((Categories demand).map (fun c' =>
        ((modelLines line_capacity).map (fun l' =>
          ((Products demand).map (fun prod' =>
            X (p, c', l', prod') - Y (p, c', l', prod'))).sum)).sum)).sum ≤
        ((Periods demand).map (fun p' =>
          ((Categories demand).map (fun c' =>
            ((modelLines line_capacity).map (fun l' =>
              ((Products demand).map (fun prod' =>
                X (p', c', l', prod') - Y (p', c', l', prod'))).sum)).sum)).sum)).sum :=
      le_sum_map_of_mem _ _ p hp
        (fun p' _ => sum_map_nonneg _ _
          (fun c' _ => sum_map_nonneg _ _
            (fun l' _ => sum_map_nonneg _ _ (fun prod' _ => hDnonneg _))))
    linarith
  have : X key ≤ 0 := by linarith
  linarith

theorem tableHours_zero_of_not_mem (demand : QMap3) (line_capacity : CapMap)
    (production_rate : QMap4) (X : K4 → ℚ) (p c l : String)
    (h : p ∉ Periods demand ∨ c ∉ Categories demand) :
    tableHours (results_df demand line_capacity production_rate X) p c l = 0 := by
  rw [tableHours]
  have hnil : (results_df demand line_capacity production_rate X).filter
      (fun r => r.period = p ∧ r.category = c ∧ r.line = l) = [] := by
    rw [List.filter_eq_nil_iff]
    intro row hrow
    obtain ⟨hper, hcat, _, _, _, _, _⟩ :=
      mem_results_df demand line_capacity production_rate X row hrow
    simp only [decide_eq_true_eq, not_and]
    intro h1 h2
    rcases h with h | h
    · exact absurd (h1 ▸ hper) h
    · exact absurd (h2 ▸ hcat) h
  rw [hnil]
  rfl

theorem raw_capacity (demand : QMap3) (line_capacity : CapMap) (production_rate : QMap4)
    (X : K4 → ℚ) (hcap : ∀ e ∈ line_capacity, 0 ≤ e.2)
    (hopt : IsOptimal demand line_capacity production_rate X)
    (p c l : String) (v : WithTop ℚ) (hv : dget line_capacity (p, c, l) = some v)
    (hl : l ≠ fictitious_line) :
    ((tableHours (results_df demand line_capacity production_rate X) p c l : ℚ) : WithTop ℚ)
      ≤ v := by
  have hv0 : (0 : WithTop ℚ) ≤ v := hcap _ (dget_mem _ _ _ hv)
  have hlreal : l ∈ realLines line_capacity := by
    rw [realLines, mem_sortedDedup]
    exact List.mem_map.2 ⟨((p, c, l), v), dget_mem _ _ _ hv, rfl⟩
  have hllist : l ∈ linesList line_capacity := by
    rw [linesList]
    exact List.mem_append_left _ hlreal
  have hlmodel : l ∈ modelLines line_capacity := by
    rw [modelLines]
    exact List.mem_dedup.2 hllist
  by_cases hp : p ∈ Periods demand
  · by_cases hc : c ∈ Categories demand
    · rw [tableHours_results_df demand line_capacity production_rate X p c l hp hc
        (count_linesList line_capacity l hlreal hl)]
      have hstep1 : ((Products demand).map (fun prod =>
          if 0 < X (p, c, l, prod) then X (p, c, l, prod) else 0)).sum =
          ((Products demand).map (fun prod => X (p, c, l, prod))).sum := by
        refine sum_map_congr _ _ _ (fun prod hprod => ?_)
        have hx : 0 ≤ X (p, c, l, prod) := hopt.1.1 p hp c hc l hlmodel prod hprod
        rcases lt_or_eq_of_le hx with hx' | hx'
        · rw [if_pos hx']
        · rw [← hx', if_neg (lt_irrefl 0)]
      rw [hstep1]
      have hsplit := sum_map_split_filter (Products demand)
        (fun prod => (dget (augmentRate demand production_rate) (p, c, l, prod)).isSome)
        (fun prod => X (p, c, l, prod))
      have hzero : (((Products demand).filter (fun prod =>
          ¬ (dget (augmentRate demand production_rate) (p, c, l, prod)).isSome)).map
            (fun prod => X (p, c, l, prod))).sum = 0 := by
        refine sum_map_zero _ _ (fun prod hprod => ?_)
        have hmem := List.mem_filter.1 hprod
        have hnot : ¬ (dget (augmentRate demand production_rate) (p, c, l, prod)).isSome = true := by
          simpa using hmem.2
        have hnone := Option.not_isSome_iff_eq_none.1 hnot
        exact optimal_zero demand line_capacity production_rate X hopt p hp c hc l hlmodel
          prod hmem.1 hnone
      have hconstr := hopt.1.2.2 p hp c hc l hlmodel
      have hcapget : capGet (augmentCapacity demand line_capacity) (p, c, l) = v := by
        rw [capGet, augmentCapacity_frame demand line_capacity p c l hl, hv, Option.getD_some]
      rw [hcapget] at hconstr
      rw [hsplit, hzero, add_zero]
      exact hconstr
    · rw [tableHours_zero_of_not_mem demand line_capacity production_rate X p c l (Or.inr hc)]
      rw [WithTop.coe_zero]
      exact hv0
  · rw [tableHours_zero_of_not_mem demand line_capacity production_rate X p c l (Or.inl hp)]
    rw [WithTop.coe_zero]
    exact hv0

theorem demandGet_nonneg (demand : QMap3) (hd : ∀ e ∈ demand, 0 ≤ e.2) (k : K3) :
    0 ≤ demandGet demand k := by
  rw [demandGet]
  cases h : dget demand k with
  | none => simp
  | some v =>
    simpa using hd _ (dget_mem _ _ _ h)

theorem capGet_nonneg (demand : QMap3) (line_capacity : CapMap)
    (hcap : ∀ e ∈ line_capacity, 0 ≤ e.2) (k : K3) :
    0 ≤ capGet (augmentCapacity demand line_capacity) k := by
  rw [capGet]
  cases h : dget (augmentCapacity demand line_capacity) k with
  | none => simp
  | some v =>
    rcases mem_augmentCapacity demand line_capacity _ (dget_mem _ _ _ h) with hm | ⟨_, hm⟩
    · simpa using hcap _ hm
    · have hv : v = ⊤ := hm
      simp [hv]

theorem fictitious_mem_modelLines (line_capacity : CapMap) :
    fictitious_line ∈ modelLines line_capacity := by
  rw [modelLines]
  refine List.mem_dedup.2 ?_
  rw [linesList]
  exact List.mem_append_right _ (List.mem_singleton.2 rfl)

/-- The fallback assignment: all demand is put on the fallback line at rate
1/100, every real line is idle. -/
def fallbackAssignment (demand : QMap3) : K4 → ℚ := fun k =>
  if k.2.2.1 = fictitious_line then 100 * demandGet demand (k.1, k.2.1, k.2.2.2) else 0

theorem fallbackAssignment_fict (demand : QMap3) (p c prod : String) :
    fallbackAssignment demand (p, c, fictitious_line, prod) =
      100 * demandGet demand (p, c, prod) := if_pos rfl

theorem fallbackAssignment_ne (demand : QMap3) (p c l prod : String)
    (h : l ≠ fictitious_line) : fallbackAssignment demand (p, c, l, prod) = 0 := if_neg h

theorem fallback_feasible (demand : QMap3) (line_capacity : CapMap)
    (production_rate : QMap4) (hd : ∀ e ∈ demand, 0 ≤ e.2)
    (hcap : ∀ e ∈ line_capacity, 0 ≤ e.2) :
    Feasible demand line_capacity production_rate (fallbackAssignment demand) := by
  refine ⟨?_, ?_, ?_⟩
  · intro p _ c _ l _ prod _
    by_cases hl : l = fictitious_line
    · subst hl
      rw [fallbackAssignment_fict]
      have h0 := demandGet_nonneg demand hd (p, c, prod)
      linarith
    · rw [fallbackAssignment_ne _ _ _ _ _ hl]
  · intro p hp c hc prod hprod
    rw [demandLhs]
    have hfict1 : (modelLines line_capacity).count fictitious_line = 1 :=
      List.count_eq_one_of_mem (List.nodup_dedup _) (fictitious_mem_modelLines line_capacity)
    rw [sum_map_count_one _ fictitious_line _ hfict1 ?_]
    · rw [fallbackAssignment_fict]
      cases hq : dget demand (p, c, prod) with
      | none =>
        rw [demandGet, hq, Option.getD_none]
        simp
      | some q =>
        have hrate : dget (augmentRate demand production_rate)
            (p, c, fictitious_line, prod) = some (1 / 100) :=
          augmentRate_at_demand_key demand production_rate (p, c, prod)
            (List.mem_map.2 ⟨((p, c, prod), q), dget_mem _ _ _ hq, rfl⟩)
        rw [rateGet, hrate, Option.getD_some, demandGet, hq, Option.getD_some]
        have harith : (100 : ℚ) * q * (1 / 100) = q := by ring
        rw [harith]
    · intro l _ hne
      rw [fallbackAssignment_ne _ _ _ _ _ hne, zero_mul]
  · intro p hp c hc l hl
    by_cases hfict : l = fictitious_line
    · subst hfict
      by_cases hpair : ∃ e ∈ demand, e.1.1 = p ∧ e.1.2.1 = c
      · rcases hpair with ⟨e, he, hep, hec⟩
        have htop := augmentCapacity_at_demand_key demand line_capacity e.1
          (List.mem_map.2 ⟨e, he, rfl⟩)
        rw [hep, hec] at htop
        rw [capGet, htop, Option.getD_some]
        exact le_top
      · have hlhs : capacityLhs demand production_rate (fallbackAssignment demand)
            p c fictitious_line = 0 := by
          rw [capacityLhs]
          refine sum_map_zero _ _ (fun prod _ => ?_)
          rw [fallbackAssignment_fict]
          cases hq : dget demand (p, c, prod) with
          | none =>
            rw [demandGet, hq, Option.getD_none, mul_zero]
          | some q =>
            exact absurd ⟨((p, c, prod), q), dget_mem _ _ _ hq, rfl, rfl⟩ hpair
        rw [hlhs, WithTop.coe_zero]
        exact capGet_nonneg demand line_capacity hcap _
    · have hlhs : capacityLhs demand production_rate (fallbackAssignment demand) p c l = 0 := by
        rw [capacityLhs]
        refine sum_map_zero _ _ (fun prod _ => ?_)
        rw [fallbackAssignment_ne _ _ _ _ _ hfict]
      rw [hlhs, WithTop.coe_zero]
      exact capGet_nonneg demand line_capacity hcap _

/-! ### Membership facts for the redistribution and aggregation stages -/

theorem rowKey_mk (p c l prod : String) (h kg : ℚ) :
    rowKey ⟨p, c, l, prod, h, kg⟩ = (p, c, l, prod) := rfl

theorem mem_aggregate (rows : List Row) :
    ∀ r ∈ aggregate rows,
      (∃ r₀ ∈ rows, rowKey r₀ = rowKey r) ∧
      r.hours = ((rows.filter (fun x => rowKey x = rowKey r)).map (fun x => x.hours)).sum ∧
      r.kg = ((rows.filter (fun x => rowKey x = rowKey r)).map (fun x => x.kg)).sum := by
  intro r hr
  rw [aggregate] at hr
  rcases List.mem_map.1 hr with ⟨k, hk, hkr⟩
  subst hkr
  refine ⟨?_, rfl, rfl⟩
  rcases List.mem_map.1 (List.mem_dedup.1 hk) with ⟨r₀, hr₀, hr₀k⟩
  refine ⟨r₀, hr₀, ?_⟩
  rw [hr₀k]
  rfl

theorem mem_fallback_rows (demand : QMap3) (line_capacity : CapMap)
    (production_rate : QMap4) (X : K4 → ℚ) :
    ∀ r ∈ fallback_rows demand line_capacity production_rate X,
      r ∈ results_df demand line_capacity production_rate X ∧ r.line = fictitious_line := by
  intro r hr
  have := List.mem_filter.1 hr
  refine ⟨this.1, by simpa using this.2⟩

theorem mem_non_fallback_rows (demand : QMap3) (line_capacity : CapMap)
    (production_rate : QMap4) (X : K4 → ℚ) :
    ∀ r ∈ non_fallback_rows demand line_capacity production_rate X,
      r ∈ results_df demand line_capacity production_rate X ∧ r.line ≠ fictitious_line := by
  intro r hr
  have := List.mem_filter.1 hr
  refine ⟨this.1, by simpa using this.2⟩

theorem mem_eligible_lines (demand : QMap3) (line_capacity : CapMap)
    (production_rate : QMap4) (p c prod : String) :
    ∀ l ∈ eligible_lines demand line_capacity production_rate p c prod,
      l ∈ linesList line_capacity ∧
      (dget (augmentRate demand production_rate) (p, c, l, prod)).isSome ∧
      l ≠ fictitious_line := by
  intro l hl
  have := List.mem_filter.1 hl
  have hcond := this.2
  simp only [decide_eq_true_eq, Bool.and_eq_true, decide_not, Bool.not_eq_true'] at hcond
  refine ⟨this.1, ?_, ?_⟩
  · simpa using hcond.1
  · simpa using hcond.2

theorem mem_redistributed (demand : QMap3) (line_capacity : CapMap)
    (production_rate : QMap4) (row : Row) :
    ∀ r ∈ redistributed demand line_capacity production_rate row,
      ∃ l ∈ eligible_lines demand line_capacity production_rate
          row.period row.category row.product,
        0 < rateGet (augmentRate demand production_rate)
          (row.period, row.category, l, row.product) ∧
        r = ⟨row.period, row.category, l, row.product,
          (row.kg / ((eligible_lines demand line_capacity production_rate
            row.period row.category row.product).length : ℚ)) /
            rateGet (augmentRate demand production_rate)
              (row.period, row.category, l, row.product),
          row.kg / ((eligible_lines demand line_capacity production_rate
            row.period row.category row.product).length : ℚ)⟩ := by
  intro r hr
  rw [redistributed] at hr
  by_cases helig : eligible_lines demand line_capacity production_rate
      row.period row.category row.product = []
  · rw [if_pos helig] at hr
    exact absurd hr (List.not_mem_nil r)
  · rw [if_neg helig] at hr
    rcases List.mem_flatMap.1 hr with ⟨l, hl, hr⟩
    by_cases hrate : 0 < rateGet (augmentRate demand production_rate)
        (row.period, row.category, l, row.product)
    · rw [if_pos hrate] at hr
      rcases List.mem_singleton.1 hr with rfl
      exact ⟨l, hl, hrate, rfl⟩
    · rw [if_neg hrate] at hr
      exact absurd hr (List.not_mem_nil r)

theorem mem_adjusted_rows (demand : QMap3) (line_capacity : CapMap)
    (production_rate : QMap4) (X : K4 → ℚ) :
    ∀ r ∈ adjusted_rows demand line_capacity production_rate X,
      ∃ row ∈ fallback_rows demand line_capacity production_rate X,
        r ∈ redistributed demand line_capacity production_rate row := by
  intro r hr
  rw [adjusted_rows] at hr
  rcases List.mem_flatMap.1 hr with ⟨row, hrow, hr⟩
  exact ⟨row, hrow, hr⟩

/-- No row of the final (post-redistribution, aggregated) allocation table is
on the fallback line. -/
theorem final_no_fallback (demand : QMap3) (line_capacity : CapMap)
    (production_rate : QMap4) (X : K4 → ℚ) :
    ∀ r ∈ results_df_adjusted demand line_capacity production_rate X,
      r.line ≠ fictitious_line := by
  intro r hr
  rw [results_df_adjusted] at hr
  obtain ⟨⟨r₀, hr₀, hkey⟩, _, _⟩ := mem_aggregate _ r hr
  have hline : r₀.line = r.line := congrArg (fun k : K4 => k.2.2.1) hkey
  rw [← hline]
  rcases List.mem_append.1 hr₀ with h | h
  · exact (mem_non_fallback_rows demand line_capacity production_rate X r₀ h).2
  · obtain ⟨row, _, hred⟩ := mem_adjusted_rows demand line_capacity production_rate X r₀ h
    obtain ⟨l, hl, _, hr₀eq⟩ := mem_redistributed demand line_capacity production_rate row r₀ hred
    have : r₀.line = l := by rw [hr₀eq]
    rw [this]
    exact (mem_eligible_lines demand line_capacity production_rate _ _ _ l hl).2.2

/-! ### The utilization reporter -/

theorem foldl_add_ite {α : Type} (l : List α) (cond : α → Prop) [DecidablePred cond]
    (f : α → ℚ) (a : ℚ) :
    l.foldl (fun acc r => if cond r then acc + f r else acc + 0) a =
      a + (l.map (fun r => if cond r then f r else 0)).sum := by
  induction l generalizing a with
  | nil => simp
  | cons x xs ih =>
    rw [List.foldl_cons, List.map_cons, List.sum_cons]
    by_cases hx : cond x
    · rw [if_pos hx, if_pos hx, ih]
      ring
    · rw [if_neg hx, if_neg hx, ih]
      ring

theorem total_demand_hours_eq (demand : QMap3) (production_rate : QMap4)
    (tbl : List Row) (p c l : String) :
    total_demand_hours demand production_rate tbl p c l =
      ((tbl.filter (fun r => r.period = p ∧ r.line = l)).map (fun r =>
        if 0 < rateGet (augmentRate demand production_rate) (p, c, l, r.product) then
          r.kg / rateGet (augmentRate demand production_rate) (p, c, l, r.product)
        else 0)).sum := by
  rw [total_demand_hours, foldl_add_ite, zero_add]

theorem ite_merge {α : Type} (P Q : Prop) [Decidable P] [Decidable Q] (x : α) (z : α) :
    (if P then (if Q then x else z) else z) = if P ∧ Q then x else z := by
  by_cases hp : P <;> by_cases hq : Q <;> simp [hp, hq]

/-- The realized-demand-hours loop, written as one sum over all rows of the
final table: only Period and Line are matched (the row category is ignored),
the rate is looked up under the capacity entry category `c`, and a row with
absent or non-positive rate contributes zero. -/
theorem total_demand_hours_char (demand : QMap3) (production_rate : QMap4)
    (tbl : List Row) (p c l : String) :
    total_demand_hours demand production_rate tbl p c l =
      (tbl.map (fun r =>
        if (r.period = p ∧ r.line = l) ∧
            0 < rateGet (augmentRate demand production_rate) (p, c, l, r.product) then
          r.kg / rateGet (augmentRate demand production_rate) (p, c, l, r.product)
        else 0)).sum := by
  rw [total_demand_hours_eq, sum_map_filter_eq_sum_ite]
  refine sum_map_congr _ _ _ (fun r _ => ?_)
  rw [← ite_merge]
  by_cases hq : r.period = p ∧ r.line = l
  · rw [if_pos hq, if_pos (by simpa using hq)]
  · rw [if_neg hq, if_neg (by simpa using hq)]

theorem kg_nonneg_results_df (demand : QMap3) (line_capacity : CapMap)
    (production_rate : QMap4) (X : K4 → ℚ) (hr : ∀ e ∈ production_rate, 0 ≤ e.2) :
    ∀ r ∈ results_df demand line_capacity production_rate X, 0 ≤ r.kg := by
  intro r hrow
  obtain ⟨_, _, _, _, hx, _, hkg⟩ :=
    mem_results_df demand line_capacity production_rate X r hrow
  rw [hkg]
  exact mul_nonneg (le_of_lt hx) (rateGet_nonneg demand production_rate hr _)

theorem kg_nonneg_final (demand : QMap3) (line_capacity : CapMap)
    (production_rate : QMap4) (X : K4 → ℚ) (hr : ∀ e ∈ production_rate, 0 ≤ e.2) :
    ∀ r ∈ results_df_adjusted demand line_capacity production_rate X, 0 ≤ r.kg := by
  intro r hrow
  rw [results_df_adjusted] at hrow
  obtain ⟨_, _, hkg⟩ := mem_aggregate _ r hrow
  rw [hkg]
  refine sum_map_nonneg _ _ (fun x hx => ?_)
  have hxmem := (List.mem_filter.1 hx).1
  rcases List.mem_append.1 hxmem with h | h
  · exact kg_nonneg_results_df demand line_capacity production_rate X hr x
      (mem_non_fallback_rows demand line_capacity production_rate X x h).1
  · obtain ⟨row, hrowmem, hred⟩ :=
      mem_adjusted_rows demand line_capacity production_rate X x h
    obtain ⟨l, _, _, hxeq⟩ :=
      mem_redistributed demand line_capacity production_rate row x hred
    have hrowkg : 0 ≤ row.kg :=
      kg_nonneg_results_df demand line_capacity production_rate X hr row
        (mem_fallback_rows demand line_capacity production_rate X row hrowmem).1
    rw [hxeq]
    exact div_nonneg hrowkg (by positivity)

theorem total_demand_hours_nonneg (demand : QMap3) (line_capacity : CapMap)
    (production_rate : QMap4) (X : K4 → ℚ) (hr : ∀ e ∈ production_rate, 0 ≤ e.2)
    (p c l : String) :
    0 ≤ total_demand_hours demand production_rate
      (results_df_adjusted demand line_capacity production_rate X) p c l := by
  rw [total_demand_hours_eq]
  refine sum_map_nonneg _ _ (fun r hrow => ?_)
  have hrmem := (List.mem_filter.1 hrow).1
  have hkg := kg_nonneg_final demand line_capacity production_rate X hr r hrmem
  by_cases hrate : 0 < rateGet (augmentRate demand production_rate) (p, c, l, r.product)
  · rw [if_pos hrate]
    exact div_nonneg hkg (le_of_lt hrate)
  · rw [if_neg hrate]

theorem total_demand_hours_fallback (demand : QMap3) (line_capacity : CapMap)
    (production_rate : QMap4) (X : K4 → ℚ) (p c : String) :
    total_demand_hours demand production_rate
      (results_df_adjusted demand line_capacity production_rate X) p c fictitious_line = 0 := by
  rw [total_demand_hours_eq]
  refine sum_map_zero _ _ (fun r hrow => ?_)
  have hrmem := List.mem_filter.1 hrow
  have hline : r.line = fictitious_line := by
    have := hrmem.2
    simp only [decide_eq_true_eq] at this
    exact this.2
  exact absurd hline
    (final_no_fallback demand line_capacity production_rate X r hrmem.1)

/-! ### The tables depend on the assignment only at model indices -/

theorem flatMap_congr {α β : Type} (l : List α) (f g : α → List β)
    (h : ∀ a ∈ l, f a = g a) : l.flatMap f = l.flatMap g := by
  induction l with
  | nil => rfl
  | cons a as ih =>
    rw [List.flatMap_cons, List.flatMap_cons, h a (List.mem_cons_self _ _),
      ih (fun a' ha' => h a' (List.mem_cons_of_mem _ ha'))]

theorem results_df_congr (demand : QMap3) (line_capacity : CapMap)
    (production_rate : QMap4) (X Y : K4 → ℚ)
    (h : ∀ p ∈ Periods demand, ∀ c ∈ Categories demand, ∀ l ∈ linesList line_capacity,
      ∀ prod ∈ Products demand, X (p, c, l, prod) = Y (p, c, l, prod)) :
    results_df demand line_capacity production_rate X =
      results_df demand line_capacity production_rate Y := by
  rw [results_df, results_df]
  refine flatMap_congr _ _ _ (fun p hp => ?_)
  refine flatMap_congr _ _ _ (fun c hc => ?_)
  refine flatMap_congr _ _ _ (fun l hl => ?_)
  refine flatMap_congr _ _ _ (fun prod hprod => ?_)
  rw [rawRow, rawRow, h p hp c hc l hl prod hprod]

theorem results_df_adjusted_congr (demand : QMap3) (line_capacity : CapMap)
    (production_rate : QMap4) (X Y : K4 → ℚ)
    (h : results_df demand line_capacity production_rate X =
      results_df demand line_capacity production_rate Y) :
    results_df_adjusted demand line_capacity production_rate X =
      results_df_adjusted demand line_capacity production_rate Y := by
  rw [results_df_adjusted, results_df_adjusted, non_fallback_rows, non_fallback_rows,
    adjusted_rows, adjusted_rows, fallback_rows, fallback_rows, h]

/-! ### Scenario from the specification: one line with insufficient capacity -/

def dS1 : QMap3 := [(("P1", "Choc", "A"), 100)]

def cS1 : CapMap := [(("P1", "Choc", "L1"), ((10 : ℚ) : WithTop ℚ))]

def rS1 : QMap4 := [(("P1", "Choc", "L1", "A"), 5)]

def X1 : K4 → ℚ := fun k =>
  if k = ("P1", "Choc", "L1", "A") then 10
  else if k = ("P1", "Choc", "Fallback_Line", "A") then 5000 else 0

theorem feas_X1 : Feasible dS1 cS1 rS1 X1 := by
  have hP : Periods dS1 = ["P1"] := by decide
  have hC : Categories dS1 = ["Choc"] := by decide
  have hPr : Products dS1 = ["A"] := by decide
  have hM : modelLines cS1 = ["L1", "Fallback_Line"] := by decide
  have hg1 : dget (augmentRate dS1 rS1) ("P1", "Choc", "L1", "A") = some 5 := by
    simp +decide [augmentRate, dS1, rS1, dset, dget, fictitious_line]
  have hg2 : dget (augmentRate dS1 rS1) ("P1", "Choc", "Fallback_Line", "A") = some (1/100) := by
    simp +decide [augmentRate, dS1, rS1, dset, dget, fictitious_line]
  have hc1 : capGet (augmentCapacity dS1 cS1) ("P1", "Choc", "L1") = ((10:ℚ) : WithTop ℚ) := by
    simp +decide [capGet, augmentCapacity, dS1, cS1, dset, dget, fictitious_line]
  have hc2 : capGet (augmentCapacity dS1 cS1) ("P1", "Choc", "Fallback_Line") = ⊤ := by
    simp +decide [capGet, augmentCapacity, dS1, cS1, dset, dget, fictitious_line]
  have hd : demandGet dS1 ("P1", "Choc", "A") = 100 := by decide
  refine ⟨?_, ?_, ?_⟩
  · simp +decide [hP, hC, hPr, hM, X1]
  · simp +decide [demandLhs, hP, hC, hPr, hM, X1, rateGet, hg1, hg2, hd]
    norm_num
  · simp +decide [capacityLhs, hP, hC, hPr, hM, X1, hg1, hg2, hc1, hc2]

theorem feasible_S1_bounds (Y : K4 → ℚ) (hY : Feasible dS1 cS1 rS1 Y) :
    0 ≤ Y ("P1", "Choc", "L1", "A") ∧ 0 ≤ Y ("P1", "Choc", "Fallback_Line", "A") ∧
    Y ("P1", "Choc", "L1", "A") ≤ 10 ∧
    100 ≤ Y ("P1", "Choc", "L1", "A") * 5 +
      Y ("P1", "Choc", "Fallback_Line", "A") * (1 / 100) := by
  have hP : "P1" ∈ Periods dS1 := by decide
  have hC : "Choc" ∈ Categories dS1 := by decide
  have hPr : "A" ∈ Products dS1 := by decide
  have hL1 : "L1" ∈ modelLines cS1 := by decide
  have hFB : "Fallback_Line" ∈ modelLines cS1 := by decide
  have hM : modelLines cS1 = ["L1", "Fallback_Line"] := by decide
  have hg1 : dget (augmentRate dS1 rS1) ("P1", "Choc", "L1", "A") = some 5 := by
    simp +decide [augmentRate, dS1, rS1, dset, dget, fictitious_line]
  have hg2 : dget (augmentRate dS1 rS1) ("P1", "Choc", "Fallback_Line", "A") = some (1/100) := by
    simp +decide [augmentRate, dS1, rS1, dset, dget, fictitious_line]
  have hc1 : capGet (augmentCapacity dS1 cS1) ("P1", "Choc", "L1") = ((10:ℚ) : WithTop ℚ) := by
    simp +decide [capGet, augmentCapacity, dS1, cS1, dset, dget, fictitious_line]
  refine ⟨hY.1 _ hP _ hC _ hL1 _ hPr, hY.1 _ hP _ hC _ hFB _ hPr, ?_, ?_⟩
  · have hcap := hY.2.2 _ hP _ hC _ hL1
    rw [hc1] at hcap
    have hlhs : capacityLhs dS1 rS1 Y "P1" "Choc" "L1" = Y ("P1", "Choc", "L1", "A") := by
      rw [capacityLhs]
      have hPfull : Products dS1 = ["A"] := by decide
      rw [hPfull]
      simp [hg1]
    rw [hlhs] at hcap
    exact WithTop.coe_le_coe.1 hcap
  · have hdem := hY.2.1 _ hP _ hC _ hPr
    rw [demandLhs, hM] at hdem
    simp only [List.map_cons, List.map_nil, List.sum_cons, List.sum_nil, add_zero] at hdem
    rw [rateGet, rateGet, hg1, hg2] at hdem
    simp only [Option.getD_some] at hdem
    have hd : demandGet dS1 ("P1", "Choc", "A") = 100 := by decide
    rw [hd] at hdem
    linarith

theorem totalHours_S1 (Y : K4 → ℚ) :
    totalHours dS1 cS1 Y =
      Y ("P1", "Choc", "L1", "A") + Y ("P1", "Choc", "Fallback_Line", "A") := by
  have hP : Periods dS1 = ["P1"] := by decide
  have hC : Categories dS1 = ["Choc"] := by decide
  have hPr : Products dS1 = ["A"] := by decide
  have hM : modelLines cS1 = ["L1", "Fallback_Line"] := by decide
  rw [totalHours, hP, hC, hPr, hM]
  simp

theorem opt_X1 : IsOptimal dS1 cS1 rS1 X1 := by
  refine ⟨feas_X1, fun Y hY => ?_⟩
  obtain ⟨h1, h2, h3, h4⟩ := feasible_S1_bounds Y hY
  rw [totalHours_S1, totalHours_S1]
  have hX1a : X1 ("P1", "Choc", "L1", "A") = 10 := by decide
  have hX1b : X1 ("P1", "Choc", "Fallback_Line", "A") = 5000 := by decide
  rw [hX1a, hX1b]
  linarith

theorem optvals_S1 (X : K4 → ℚ) (hopt : IsOptimal dS1 cS1 rS1 X) :
    X ("P1", "Choc", "L1", "A") = 10 ∧ X ("P1", "Choc", "Fallback_Line", "A") = 5000 := by
  obtain ⟨h1, h2, h3, h4⟩ := feasible_S1_bounds X hopt.1
  have hle := hopt.2 X1 feas_X1
  rw [totalHours_S1, totalHours_S1] at hle
  have hX1a : X1 ("P1", "Choc", "L1", "A") = 10 := by decide
  have hX1b : X1 ("P1", "Choc", "Fallback_Line", "A") = 5000 := by decide
  rw [hX1a, hX1b] at hle
  constructor
  · linarith
  · linarith

theorem raw_S1 : results_df dS1 cS1 rS1 X1 =
    [⟨"P1", "Choc", "L1", "A", 10, 50⟩, ⟨"P1", "Choc", "Fallback_Line", "A", 5000, 50⟩] := by
  have hP : Periods dS1 = ["P1"] := by decide
  have hC : Categories dS1 = ["Choc"] := by decide
  have hPr : Products dS1 = ["A"] := by decide
  have hL : linesList cS1 = ["L1", "Fallback_Line"] := by decide
  have hg1 : dget (augmentRate dS1 rS1) ("P1", "Choc", "L1", "A") = some 5 := by
    simp +decide [augmentRate, dS1, rS1, dset, dget, fictitious_line]
  have hg2 : dget (augmentRate dS1 rS1) ("P1", "Choc", "Fallback_Line", "A") = some (1/100) := by
    simp +decide [augmentRate, dS1, rS1, dset, dget, fictitious_line]
  simp +decide [results_df, rawRow, hP, hC, hPr, hL, rateGet, hg1, hg2, X1]
  norm_num

theorem adj_S1 : results_df_adjusted dS1 cS1 rS1 X1 =
    [⟨"P1", "Choc", "L1", "A", 20, 100⟩] := by
  have hg1 : dget (augmentRate dS1 rS1) ("P1", "Choc", "L1", "A") = some 5 := by
    simp +decide [augmentRate, dS1, rS1, dset, dget, fictitious_line]
  have helig : eligible_lines dS1 cS1 rS1 "P1" "Choc" "A" = ["L1"] := by
    have hL : linesList cS1 = ["L1", "Fallback_Line"] := by decide
    simp +decide [eligible_lines, hL, hg1, fictitious_line]
  simp +decide [results_df_adjusted, non_fallback_rows, adjusted_rows, fallback_rows, raw_S1,
    fictitious_line, redistributed, helig, rateGet, hg1, aggregate, rowKey]
  norm_num

theorem util_S1 : capacity_demand_df dS1 cS1 rS1 X1 =
    [(("P1", "Choc", "L1"), some ((10 / (20 + eps) : ℚ) : WithTop ℚ)),
     (("P1", "Choc", "Fallback_Line"), none)] := by
  have haug : augmentCapacity dS1 cS1 =
      [(("P1", "Choc", "L1"), ((10:ℚ) : WithTop ℚ)), (("P1", "Choc", "Fallback_Line"), ⊤)] := by
    simp +decide [augmentCapacity, dS1, cS1, dset, fictitious_line]
  have hg1 : dget (augmentRate dS1 rS1) ("P1", "Choc", "L1", "A") = some 5 := by
    simp +decide [augmentRate, dS1, rS1, dset, dget, fictitious_line]
  have hg3 : dget (augmentRate dS1 rS1) ("P1", "Choc", "Fallback_Line", "A") = some (1/100) := by
    simp +decide [augmentRate, dS1, rS1, dset, dget, fictitious_line]
  have h10 : (10 : WithTop ℚ) = ((10:ℚ) : WithTop ℚ) := rfl
  simp +decide [capacity_demand_df, haug, adj_S1, utilEntry, total_demand_hours, rateGet, hg1,
    hg3, fictitious_line, wdiv]
  rw [h10, WithTop.map_coe, WithTop.coe_eq_coe]
  norm_num

theorem optimal_S1_tables (X : K4 → ℚ) (hopt : IsOptimal dS1 cS1 rS1 X) :
    results_df dS1 cS1 rS1 X =
      [⟨"P1", "Choc", "L1", "A", 10, 50⟩, ⟨"P1", "Choc", "Fallback_Line", "A", 5000, 50⟩] ∧
    results_df_adjusted dS1 cS1 rS1 X = [⟨"P1", "Choc", "L1", "A", 20, 100⟩] := by
  obtain ⟨ha, hb⟩ := optvals_S1 X hopt
  have hcong : results_df dS1 cS1 rS1 X = results_df dS1 cS1 rS1 X1 := by
    refine results_df_congr dS1 cS1 rS1 X X1 ?_
    intro p hp c hc l hl prod hprod
    have hP : Periods dS1 = ["P1"] := by decide
    have hC : Categories dS1 = ["Choc"] := by decide
    have hPr : Products dS1 = ["A"] := by decide
    have hL : linesList cS1 = ["L1", "Fallback_Line"] := by decide
    rw [hP] at hp
    rw [hC] at hc
    rw [hPr] at hprod
    rw [hL] at hl
    rcases List.mem_singleton.1 hp with rfl
    rcases List.mem_singleton.1 hc with rfl
    rcases List.mem_singleton.1 hprod with rfl
    rcases List.mem_cons.1 hl with rfl | hl'
    · rw [ha]
      decide
    · rcases List.mem_singleton.1 hl' with rfl
      rw [hb]
      decide
  refine ⟨hcong.trans raw_S1, ?_⟩
  rw [results_df_adjusted_congr dS1 cS1 rS1 X X1 hcong]
  exact adj_S1

/-! ### Scenario with no real rate entry at all: the fallback mass is dropped -/

def dS0 : QMap3 := [(("P1", "Choc", "A"), 100)]

def cS0 : CapMap := [(("P1", "Choc", "L1"), ((10 : ℚ) : WithTop ℚ))]

def rS0 : QMap4 := []

def XS0 : K4 → ℚ := fun k => if k = ("P1", "Choc", "Fallback_Line", "A") then 10000 else 0

theorem feas_XS0 : Feasible dS0 cS0 rS0 XS0 := by
  have hP : Periods dS0 = ["P1"] := by decide
  have hC : Categories dS0 = ["Choc"] := by decide
  have hPr : Products dS0 = ["A"] := by decide
  have hM : modelLines cS0 = ["L1", "Fallback_Line"] := by decide
  have hg1 : dget (augmentRate dS0 rS0) ("P1", "Choc", "L1", "A") = none := by
    simp +decide [augmentRate, dS0, rS0, dset, dget, fictitious_line]
  have hg2 : dget (augmentRate dS0 rS0) ("P1", "Choc", "Fallback_Line", "A") = some (1/100) := by
    simp +decide [augmentRate, dS0, rS0, dset, dget, fictitious_line]
  have hc1 : capGet (augmentCapacity dS0 cS0) ("P1", "Choc", "L1") = ((10:ℚ) : WithTop ℚ) := by
    simp +decide [capGet, augmentCapacity, dS0, cS0, dset, dget, fictitious_line]
  have hc2 : capGet (augmentCapacity dS0 cS0) ("P1", "Choc", "Fallback_Line") = ⊤ := by
    simp +decide [capGet, augmentCapacity, dS0, cS0, dset, dget, fictitious_line]
  have hd : demandGet dS0 ("P1", "Choc", "A") = 100 := by decide
  refine ⟨?_, ?_, ?_⟩
  · simp +decide [hP, hC, hPr, hM, XS0]
  · simp +decide [demandLhs, hP, hC, hPr, hM, XS0, rateGet, hg1, hg2, hd]
    norm_num
  · simp +decide [capacityLhs, hP, hC, hPr, hM, XS0, hg1, hg2, hc1, hc2]

theorem feasible_S0_bounds (Y : K4 → ℚ) (hY : Feasible dS0 cS0 rS0 Y) :
    0 ≤ Y ("P1", "Choc", "L1", "A") ∧
    100 ≤ Y ("P1", "Choc", "Fallback_Line", "A") * (1 / 100) := by
  have hP : "P1" ∈ Periods dS0 := by decide
  have hC : "Choc" ∈ Categories dS0 := by decide
  have hPr : "A" ∈ Products dS0 := by decide
  have hL1 : "L1" ∈ modelLines cS0 := by decide
  have hM : modelLines cS0 = ["L1", "Fallback_Line"] := by decide
  have hg1 : dget (augmentRate dS0 rS0) ("P1", "Choc", "L1", "A") = none := by
    simp +decide [augmentRate, dS0, rS0, dset, dget, fictitious_line]
  have hg2 : dget (augmentRate dS0 rS0) ("P1", "Choc", "Fallback_Line", "A") = some (1/100) := by
    simp +decide [augmentRate, dS0, rS0, dset, dget, fictitious_line]
  refine ⟨hY.1 _ hP _ hC _ hL1 _ hPr, ?_⟩
  have hdem := hY.2.1 _ hP _ hC _ hPr
  rw [demandLhs, hM] at hdem
  simp only [List.map_cons, List.map_nil, List.sum_cons, List.sum_nil, add_zero] at hdem
  rw [rateGet, rateGet, hg1, hg2] at hdem
  simp only [Option.getD_some, Option.getD_none, mul_zero, zero_add] at hdem
  have hd : demandGet dS0 ("P1", "Choc", "A") = 100 := by decide
  rw [hd] at hdem
  linarith

theorem totalHours_S0 (Y : K4 → ℚ) :
    totalHours dS0 cS0 Y =
      Y ("P1", "Choc", "L1", "A") + Y ("P1", "Choc", "Fallback_Line", "A") := by
  have hP : Periods dS0 = ["P1"] := by decide
  have hC : Categories dS0 = ["Choc"] := by decide
  have hPr : Products dS0 = ["A"] := by decide
  have hM : modelLines cS0 = ["L1", "Fallback_Line"] := by decide
  rw [totalHours, hP, hC, hPr, hM]
  simp

theorem opt_XS0 : IsOptimal dS0 cS0 rS0 XS0 := by
  refine ⟨feas_XS0, fun Y hY => ?_⟩
  obtain ⟨h1, h2⟩ := feasible_S0_bounds Y hY
  rw [totalHours_S0, totalHours_S0]
  have ha : XS0 ("P1", "Choc", "L1", "A") = 0 := by decide
  have hb : XS0 ("P1", "Choc", "Fallback_Line", "A") = 10000 := by decide
  rw [ha, hb]
  linarith

theorem raw_S0 : results_df dS0 cS0 rS0 XS0 =
    [⟨"P1", "Choc", "Fallback_Line", "A", 10000, 100⟩] := by
  have hP : Periods dS0 = ["P1"] := by decide
  have hC : Categories dS0 = ["Choc"] := by decide
  have hPr : Products dS0 = ["A"] := by decide
  have hL : linesList cS0 = ["L1", "Fallback_Line"] := by decide
  have hg1 : dget (augmentRate dS0 rS0) ("P1", "Choc", "L1", "A") = none := by
    simp +decide [augmentRate, dS0, rS0, dset, dget, fictitious_line]
  have hg2 : dget (augmentRate dS0 rS0) ("P1", "Choc", "Fallback_Line", "A") = some (1/100) := by
    simp +decide [augmentRate, dS0, rS0, dset, dget, fictitious_line]
  simp +decide [results_df, rawRow, hP, hC, hPr, hL, rateGet, hg1, hg2, XS0]
  norm_num

theorem adj_S0 : results_df_adjusted dS0 cS0 rS0 XS0 = [] := by
  have hg1 : dget (augmentRate dS0 rS0) ("P1", "Choc", "L1", "A") = none := by
    simp +decide [augmentRate, dS0, rS0, dset, dget, fictitious_line]
  have helig : eligible_lines dS0 cS0 rS0 "P1" "Choc" "A" = [] := by
    have hL : linesList cS0 = ["L1", "Fallback_Line"] := by decide
    simp +decide [eligible_lines, hL, hg1, fictitious_line]
  simp +decide [results_df_adjusted, non_fallback_rows, adjusted_rows, fallback_rows, raw_S0,
    fictitious_line, redistributed, helig, aggregate, rowKey]

/-! ### Scenario with a zero-capacity second line: redistribution overload -/

def dS2 : QMap3 := [(("P1", "Choc", "A"), 100)]

def cS2 : CapMap :=
  [(("P1", "Choc", "L1"), ((10 : ℚ) : WithTop ℚ)), (("P1", "Choc", "L2"), ((0 : ℚ) : WithTop ℚ))]

def rS2 : QMap4 := [(("P1", "Choc", "L1", "A"), 5), (("P1", "Choc", "L2", "A"), 5)]

def XS2 : K4 → ℚ := fun k =>
  if k = ("P1", "Choc", "L1", "A") then 10
  else if k = ("P1", "Choc", "Fallback_Line", "A") then 5000 else 0

theorem feas_XS2 : Feasible dS2 cS2 rS2 XS2 := by
  have hP : Periods dS2 = ["P1"] := by decide
  have hC : Categories dS2 = ["Choc"] := by decide
  have hPr : Products dS2 = ["A"] := by decide
  have hM : modelLines cS2 = ["L1", "L2", "Fallback_Line"] := by decide
  have hg1 : dget (augmentRate dS2 rS2) ("P1", "Choc", "L1", "A") = some 5 := by
    simp +decide [augmentRate, dS2, rS2, dset, dget, fictitious_line]
  have hg2 : dget (augmentRate dS2 rS2) ("P1", "Choc", "L2", "A") = some 5 := by
    simp +decide [augmentRate, dS2, rS2, dset, dget, fictitious_line]
  have hg3 : dget (augmentRate dS2 rS2) ("P1", "Choc", "Fallback_Line", "A") = some (1/100) := by
    simp +decide [augmentRate, dS2, rS2, dset, dget, fictitious_line]
  have hc1 : capGet (augmentCapacity dS2 cS2) ("P1", "Choc", "L1") = ((10:ℚ) : WithTop ℚ) := by
    simp +decide [capGet, augmentCapacity, dS2, cS2, dset, dget, fictitious_line]
  have hc2 : capGet (augmentCapacity dS2 cS2) ("P1", "Choc", "L2") = ((0:ℚ) : WithTop ℚ) := by
    simp +decide [capGet, augmentCapacity, dS2, cS2, dset, dget, fictitious_line]
  have hc3 : capGet (augmentCapacity dS2 cS2) ("P1", "Choc", "Fallback_Line") = ⊤ := by
    simp +decide [capGet, augmentCapacity, dS2, cS2, dset, dget, fictitious_line]
  have hd : demandGet dS2 ("P1", "Choc", "A") = 100 := by decide
  refine ⟨?_, ?_, ?_⟩
  · simp +decide [hP, hC, hPr, hM, XS2]
  · simp +decide [demandLhs, hP, hC, hPr, hM, XS2, rateGet, hg1, hg2, hg3, hd]
    norm_num
  · simp +decide [capacityLhs, hP, hC, hPr, hM, XS2, hg1, hg2, hg3, hc1, hc2, hc3]

theorem feasible_S2_bounds (Y : K4 → ℚ) (hY : Feasible dS2 cS2 rS2 Y) :
    0 ≤ Y ("P1", "Choc", "L1", "A") ∧ 0 ≤ Y ("P1", "Choc", "L2", "A") ∧
    0 ≤ Y ("P1", "Choc", "Fallback_Line", "A") ∧
    Y ("P1", "Choc", "L1", "A") ≤ 10 ∧ Y ("P1", "Choc", "L2", "A") ≤ 0 ∧
    100 ≤ Y ("P1", "Choc", "L1", "A") * 5 + Y ("P1", "Choc", "L2", "A") * 5 +
      Y ("P1", "Choc", "Fallback_Line", "A") * (1 / 100) := by
  have hP : "P1" ∈ Periods dS2 := by decide
  have hC : "Choc" ∈ Categories dS2 := by decide
  have hPr : "A" ∈ Products dS2 := by decide
  have hL1 : "L1" ∈ modelLines cS2 := by decide
  have hL2 : "L2" ∈ modelLines cS2 := by decide
  have hFB : "Fallback_Line" ∈ modelLines cS2 := by decide
  have hM : modelLines cS2 = ["L1", "L2", "Fallback_Line"] := by decide
  have hPfull : Products dS2 = ["A"] := by decide
  have hg1 : dget (augmentRate dS2 rS2) ("P1", "Choc", "L1", "A") = some 5 := by
    simp +decide [augmentRate, dS2, rS2, dset, dget, fictitious_line]
  have hg2 : dget (augmentRate dS2 rS2) ("P1", "Choc", "L2", "A") = some 5 := by
    simp +decide [augmentRate, dS2, rS2, dset, dget, fictitious_line]
  have hg3 : dget (augmentRate dS2 rS2) ("P1", "Choc", "Fallback_Line", "A") = some (1/100) := by
    simp +decide [augmentRate, dS2, rS2, dset, dget, fictitious_line]
  have hc1 : capGet (augmentCapacity dS2 cS2) ("P1", "Choc", "L1") = ((10:ℚ) : WithTop ℚ) := by
    simp +decide [capGet, augmentCapacity, dS2, cS2, dset, dget, fictitious_line]
  have hc2 : capGet (augmentCapacity dS2 cS2) ("P1", "Choc", "L2") = ((0:ℚ) : WithTop ℚ) := by
    simp +decide [capGet, augmentCapacity, dS2, cS2, dset, dget, fictitious_line]
  refine ⟨hY.1 _ hP _ hC _ hL1 _ hPr, hY.1 _ hP _ hC _ hL2 _ hPr,
    hY.1 _ hP _ hC _ hFB _ hPr, ?_, ?_, ?_⟩
  · have hcap := hY.2.2 _ hP _ hC _ hL1
    rw [hc1] at hcap
    have hlhs : capacityLhs dS2 rS2 Y "P1" "Choc" "L1" = Y ("P1", "Choc", "L1", "A") := by
      rw [capacityLhs, hPfull]
      simp [hg1]
    rw [hlhs] at hcap
    exact WithTop.coe_le_coe.1 hcap
  · have hcap := hY.2.2 _ hP _ hC _ hL2
    rw [hc2] at hcap
    have hlhs : capacityLhs dS2 rS2 Y "P1" "Choc" "L2" = Y ("P1", "Choc", "L2", "A") := by
      rw [capacityLhs, hPfull]
      simp [hg2]
    rw [hlhs] at hcap
    exact WithTop.coe_le_coe.1 hcap
  · have hdem := hY.2.1 _ hP _ hC _ hPr
    rw [demandLhs, hM] at hdem
    simp only [List.map_cons, List.map_nil, List.sum_cons, List.sum_nil, add_zero] at hdem
    rw [rateGet, rateGet, rateGet, hg1, hg2, hg3] at hdem
    simp only [Option.getD_some] at hdem
    have hd : demandGet dS2 ("P1", "Choc", "A") = 100 := by decide
    rw [hd] at hdem
    linarith

theorem totalHours_S2 (Y : K4 → ℚ) :
    totalHours dS2 cS2 Y = Y ("P1", "Choc", "L1", "A") + Y ("P1", "Choc", "L2", "A") +
      Y ("P1", "Choc", "Fallback_Line", "A") := by
  have hP : Periods dS2 = ["P1"] := by decide
  have hC : Categories dS2 = ["Choc"] := by decide
  have hPr : Products dS2 = ["A"] := by decide
  have hM : modelLines cS2 = ["L1", "L2", "Fallback_Line"] := by decide
  rw [totalHours, hP, hC, hPr, hM]
  simp
  ring

theorem opt_XS2 : IsOptimal dS2 cS2 rS2 XS2 := by
  refine ⟨feas_XS2, fun Y hY => ?_⟩
  obtain ⟨h1, h2, h3, h4, h5, h6⟩ := feasible_S2_bounds Y hY
  rw [totalHours_S2, totalHours_S2]
  have ha : XS2 ("P1", "Choc", "L1", "A") = 10 := by decide
  have hb : XS2 ("P1", "Choc", "L2", "A") = 0 := by decide
  have hf : XS2 ("P1", "Choc", "Fallback_Line", "A") = 5000 := by decide
  rw [ha, hb, hf]
  linarith

theorem raw_S2 : results_df dS2 cS2 rS2 XS2 =
    [⟨"P1", "Choc", "L1", "A", 10, 50⟩, ⟨"P1", "Choc", "Fallback_Line", "A", 5000, 50⟩] := by
  have hP : Periods dS2 = ["P1"] := by decide
  have hC : Categories dS2 = ["Choc"] := by decide
  have hPr : Products dS2 = ["A"] := by decide
  have hL : linesList cS2 = ["L1", "L2", "Fallback_Line"] := by decide
  have hg1 : dget (augmentRate dS2 rS2) ("P1", "Choc", "L1", "A") = some 5 := by
    simp +decide [augmentRate, dS2, rS2, dset, dget, fictitious_line]
  have hg2 : dget (augmentRate dS2 rS2) ("P1", "Choc", "L2", "A") = some 5 := by
    simp +decide [augmentRate, dS2, rS2, dset, dget, fictitious_line]
  have hg3 : dget (augmentRate dS2 rS2) ("P1", "Choc", "Fallback_Line", "A") = some (1/100) := by
    simp +decide [augmentRate, dS2, rS2, dset, dget, fictitious_line]
  simp +decide [results_df, rawRow, hP, hC, hPr, hL, rateGet, hg1, hg2, hg3, XS2]
  norm_num

theorem adj_S2 : results_df_adjusted dS2 cS2 rS2 XS2 =
    [⟨"P1", "Choc", "L1", "A", 15, 75⟩, ⟨"P1", "Choc", "L2", "A", 5, 25⟩] := by
  have hg1 : dget (augmentRate dS2 rS2) ("P1", "Choc", "L1", "A") = some 5 := by
    simp +decide [augmentRate, dS2, rS2, dset, dget, fictitious_line]
  have hg2 : dget (augmentRate dS2 rS2) ("P1", "Choc", "L2", "A") = some 5 := by
    simp +decide [augmentRate, dS2, rS2, dset, dget, fictitious_line]
  have helig : eligible_lines dS2 cS2 rS2 "P1" "Choc" "A" = ["L1", "L2"] := by
    have hL : linesList cS2 = ["L1", "L2", "Fallback_Line"] := by decide
    simp +decide [eligible_lines, hL, hg1, hg2, fictitious_line]
  simp +decide [results_df_adjusted, non_fallback_rows, adjusted_rows, fallback_rows, raw_S2,
    fictitious_line, redistributed, helig, rateGet, hg1, hg2, aggregate, rowKey]
  norm_num

theorem util_S2 : capacity_demand_df dS2 cS2 rS2 XS2 =
    [(("P1", "Choc", "L1"), some ((10 / (15 + eps) : ℚ) : WithTop ℚ)),
     (("P1", "Choc", "L2"), some ((0 : ℚ) : WithTop ℚ)),
     (("P1", "Choc", "Fallback_Line"), none)] := by
  have haug : augmentCapacity dS2 cS2 =
      [(("P1", "Choc", "L1"), ((10:ℚ) : WithTop ℚ)), (("P1", "Choc", "L2"), ((0:ℚ) : WithTop ℚ)),
       (("P1", "Choc", "Fallback_Line"), ⊤)] := by
    simp +decide [augmentCapacity, dS2, cS2, dset, fictitious_line]
  have hg1 : dget (augmentRate dS2 rS2) ("P1", "Choc", "L1", "A") = some 5 := by
    simp +decide [augmentRate, dS2, rS2, dset, dget, fictitious_line]
  have hg2 : dget (augmentRate dS2 rS2) ("P1", "Choc", "L2", "A") = some 5 := by
    simp +decide [augmentRate, dS2, rS2, dset, dget, fictitious_line]
  have hg3 : dget (augmentRate dS2 rS2) ("P1", "Choc", "Fallback_Line", "A") = some (1/100) := by
    simp +decide [augmentRate, dS2, rS2, dset, dget, fictitious_line]
  simp +decide [capacity_demand_df, haug, adj_S2, utilEntry, total_demand_hours, rateGet, hg1,
    hg2, hg3, fictitious_line, wdiv]
  norm_num [WithTop.map_coe, WithTop.coe_eq_coe]
  rw [show (10 : WithTop ℚ) = ((10:ℚ) : WithTop ℚ) from rfl, WithTop.map_coe,
    WithTop.coe_eq_coe]

/-! ### Scenario with a zero-valued rate entry: the redistributor loses mass -/

def dS3 : QMap3 := [(("P1", "Choc", "A"), 100)]

def cS3 : CapMap :=
  [(("P1", "Choc", "L1"), ((10 : ℚ) : WithTop ℚ)), (("P1", "Choc", "L2"), ((10 : ℚ) : WithTop ℚ))]

def rS3 : QMap4 := [(("P1", "Choc", "L1", "A"), 5), (("P1", "Choc", "L2", "A"), 0)]

def XS3 : K4 → ℚ := fun k =>
  if k = ("P1", "Choc", "L1", "A") then 10
  else if k = ("P1", "Choc", "Fallback_Line", "A") then 5000 else 0

theorem feas_XS3 : Feasible dS3 cS3 rS3 XS3 := by
  have hP : Periods dS3 = ["P1"] := by decide
  have hC : Categories dS3 = ["Choc"] := by decide
  have hPr : Products dS3 = ["A"] := by decide
  have hM : modelLines cS3 = ["L1", "L2", "Fallback_Line"] := by decide
  have hg1 : dget (augmentRate dS3 rS3) ("P1", "Choc", "L1", "A") = some 5 := by
    simp +decide [augmentRate, dS3, rS3, dset, dget, fictitious_line]
  have hg2 : dget (augmentRate dS3 rS3) ("P1", "Choc", "L2", "A") = some 0 := by
    simp +decide [augmentRate, dS3, rS3, dset, dget, fictitious_line]
  have hg3 : dget (augmentRate dS3 rS3) ("P1", "Choc", "Fallback_Line", "A") = some (1/100) := by
    simp +decide [augmentRate, dS3, rS3, dset, dget, fictitious_line]
  have hc1 : capGet (augmentCapacity dS3 cS3) ("P1", "Choc", "L1") = ((10:ℚ) : WithTop ℚ) := by
    simp +decide [capGet, augmentCapacity, dS3, cS3, dset, dget, fictitious_line]
  have hc2 : capGet (augmentCapacity dS3 cS3) ("P1", "Choc", "L2") = ((10:ℚ) : WithTop ℚ) := by
    simp +decide [capGet, augmentCapacity, dS3, cS3, dset, dget, fictitious_line]
  have hc3 : capGet (augmentCapacity dS3 cS3) ("P1", "Choc", "Fallback_Line") = ⊤ := by
    simp +decide [capGet, augmentCapacity, dS3, cS3, dset, dget, fictitious_line]
  have hd : demandGet dS3 ("P1", "Choc", "A") = 100 := by decide
  refine ⟨?_, ?_, ?_⟩
  · simp +decide [hP, hC, hPr, hM, XS3]
  · simp +decide [demandLhs, hP, hC, hPr, hM, XS3, rateGet, hg1, hg2, hg3, hd]
    norm_num
  · simp +decide [capacityLhs, hP, hC, hPr, hM, XS3, hg1, hg2, hg3, hc1, hc2, hc3]

theorem feasible_S3_bounds (Y : K4 → ℚ) (hY : Feasible dS3 cS3 rS3 Y) :
    0 ≤ Y ("P1", "Choc", "L1", "A") ∧ 0 ≤ Y ("P1", "Choc", "L2", "A") ∧
    0 ≤ Y ("P1", "Choc", "Fallback_Line", "A") ∧
    Y ("P1", "Choc", "L1", "A") ≤ 10 ∧
    100 ≤ Y ("P1", "Choc", "L1", "A") * 5 +
      Y ("P1", "Choc", "Fallback_Line", "A") * (1 / 100) := by
  have hP : "P1" ∈ Periods dS3 := by decide
  have hC : "Choc" ∈ Categories dS3 := by decide
  have hPr : "A" ∈ Products dS3 := by decide
  have hL1 : "L1" ∈ modelLines cS3 := by decide
  have hL2 : "L2" ∈ modelLines cS3 := by decide
  have hFB : "Fallback_Line" ∈ modelLines cS3 := by decide
  have hM : modelLines cS3 = ["L1", "L2", "Fallback_Line"] := by decide
  have hPfull : Products dS3 = ["A"] := by decide
  have hg1 : dget (augmentRate dS3 rS3) ("P1", "Choc", "L1", "A") = some 5 := by
    simp +decide [augmentRate, dS3, rS3, dset, dget, fictitious_line]
  have hg2 : dget (augmentRate dS3 rS3) ("P1", "Choc", "L2", "A") = some 0 := by
    simp +decide [augmentRate, dS3, rS3, dset, dget, fictitious_line]
  have hg3 : dget (augmentRate dS3 rS3) ("P1", "Choc", "Fallback_Line", "A") = some (1/100) := by
    simp +decide [augmentRate, dS3, rS3, dset, dget, fictitious_line]
  have hc1 : capGet (augmentCapacity dS3 cS3) ("P1", "Choc", "L1") = ((10:ℚ) : WithTop ℚ) := by
    simp +decide [capGet, augmentCapacity, dS3, cS3, dset, dget, fictitious_line]
  refine ⟨hY.1 _ hP _ hC _ hL1 _ hPr, hY.1 _ hP _ hC _ hL2 _ hPr,
    hY.1 _ hP _ hC _ hFB _ hPr, ?_, ?_⟩
  · have hcap := hY.2.2 _ hP _ hC _ hL1
    rw [hc1] at hcap
    have hlhs : capacityLhs dS3 rS3 Y "P1" "Choc" "L1" = Y ("P1", "Choc", "L1", "A") := by
      rw [capacityLhs, hPfull]
      simp [hg1]
    rw [hlhs] at hcap
    exact WithTop.coe_le_coe.1 hcap
  · have hdem := hY.2.1 _ hP _ hC _ hPr
    rw [demandLhs, hM] at hdem
    simp only [List.map_cons, List.map_nil, List.sum_cons, List.sum_nil, add_zero] at hdem
    rw [rateGet, rateGet, rateGet, hg1, hg2, hg3] at hdem
    simp only [Option.getD_some, mul_zero] at hdem
    have hd : demandGet dS3 ("P1", "Choc", "A") = 100 := by decide
    rw [hd] at hdem
    linarith

theorem totalHours_S3 (Y : K4 → ℚ) :
    totalHours dS3 cS3 Y = Y ("P1", "Choc", "L1", "A") + Y ("P1", "Choc", "L2", "A") +
      Y ("P1", "Choc", "Fallback_Line", "A") := by
  have hP : Periods dS3 = ["P1"] := by decide
  have hC : Categories dS3 = ["Choc"] := by decide
  have hPr : Products dS3 = ["A"] := by decide
  have hM : modelLines cS3 = ["L1", "L2", "Fallback_Line"] := by decide
  rw [totalHours, hP, hC, hPr, hM]
  simp
  ring

theorem opt_XS3 : IsOptimal dS3 cS3 rS3 XS3 := by
  refine ⟨feas_XS3, fun Y hY => ?_⟩
  obtain ⟨h1, h2, h3, h4, h5⟩ := feasible_S3_bounds Y hY
  rw [totalHours_S3, totalHours_S3]
  have ha : XS3 ("P1", "Choc", "L1", "A") = 10 := by decide
  have hb : XS3 ("P1", "Choc", "L2", "A") = 0 := by decide
  have hf : XS3 ("P1", "Choc", "Fallback_Line", "A") = 5000 := by decide
  rw [ha, hb, hf]
  linarith

theorem raw_S3 : results_df dS3 cS3 rS3 XS3 =
    [⟨"P1", "Choc", "L1", "A", 10, 50⟩, ⟨"P1", "Choc", "Fallback_Line", "A", 5000, 50⟩] := by
  have hP : Periods dS3 = ["P1"] := by decide
  have hC : Categories dS3 = ["Choc"] := by decide
  have hPr : Products dS3 = ["A"] := by decide
  have hL : linesList cS3 = ["L1", "L2", "Fallback_Line"] := by decide
  have hg1 : dget (augmentRate dS3 rS3) ("P1", "Choc", "L1", "A") = some 5 := by
    simp +decide [augmentRate, dS3, rS3, dset, dget, fictitious_line]
  have hg2 : dget (augmentRate dS3 rS3) ("P1", "Choc", "L2", "A") = some 0 := by
    simp +decide [augmentRate, dS3, rS3, dset, dget, fictitious_line]
  have hg3 : dget (augmentRate dS3 rS3) ("P1", "Choc", "Fallback_Line", "A") = some (1/100) := by
    simp +decide [augmentRate, dS3, rS3, dset, dget, fictitious_line]
  simp +decide [results_df, rawRow, hP, hC, hPr, hL, rateGet, hg1, hg2, hg3, XS3]
  norm_num

theorem fallback_mass_S3 : ((fallback_rows dS3 cS3 rS3 XS3).map (fun r => r.kg)).sum = 50 := by
  simp +decide [fallback_rows, raw_S3, fictitious_line]

theorem adjusted_mass_S3 : ((adjusted_rows dS3 cS3 rS3 XS3).map (fun r => r.kg)).sum = 25 := by
  have hg1 : dget (augmentRate dS3 rS3) ("P1", "Choc", "L1", "A") = some 5 := by
    simp +decide [augmentRate, dS3, rS3, dset, dget, fictitious_line]
  have hg2 : dget (augmentRate dS3 rS3) ("P1", "Choc", "L2", "A") = some 0 := by
    simp +decide [augmentRate, dS3, rS3, dset, dget, fictitious_line]
  have helig : eligible_lines dS3 cS3 rS3 "P1" "Choc" "A" = ["L1", "L2"] := by
    have hL : linesList cS3 = ["L1", "L2", "Fallback_Line"] := by decide
    simp +decide [eligible_lines, hL, hg1, hg2, fictitious_line]
  simp +decide [adjusted_rows, fallback_rows, raw_S3, fictitious_line, redistributed, helig,
    rateGet, hg1, hg2]
  norm_num

/-! ### Inputs for the augmentation frame counterexample -/

def dC9 : QMap3 := [(("P1", "Choc", "A"), 1)]

def cC9 : CapMap := [(("P1", "Choc", "Fallback_Line"), ((3 : ℚ) : WithTop ℚ))]

def rC9 : QMap4 := [(("P1", "Choc", "Fallback_Line", "A"), 5)]

/-! ### The claims -/

/-- C1 (amended): for every input with non-negative rate values and every
feasible solver assignment, each (period, category, product) key with a
stated positive demand is covered by the RAW (pre-redistribution) allocation
table: the sum of produced mass over its rows is at least the demanded
quantity (exactly, hence within any solver tolerance).  The final table can
fall short when fallback mass is dropped (see the counterexample). -/
theorem C1_raw_coverage (demand : QMap3) (line_capacity : CapMap)
    (production_rate : QMap4) (X : K4 → ℚ) (hr : ∀ e ∈ production_rate, 0 ≤ e.2)
    (hfeas : Feasible demand line_capacity production_rate X)
    (p c prod : String) (q : ℚ) (hq : dget demand (p, c, prod) = some q) (_hpos : 0 < q) :
    q ≤ tableMass (results_df demand line_capacity production_rate X) p c prod :=
  raw_coverage demand line_capacity production_rate X hr hfeas p c prod q hq

theorem C1_raw_coverage_witness :
    (∀ e ∈ rS1, 0 ≤ e.2) ∧ Feasible dS1 cS1 rS1 X1 ∧
    dget dS1 ("P1", "Choc", "A") = some 100 ∧ (0 : ℚ) < 100 ∧
    (100 : ℚ) ≤ tableMass (results_df dS1 cS1 rS1 X1) "P1" "Choc" "A" :=
  ⟨by decide, feas_X1, by decide, by decide,
    C1_raw_coverage dS1 cS1 rS1 X1 (by decide) feas_X1 "P1" "Choc" "A" 100 (by decide)
      (by decide)⟩

/-- C1 counterexample: on the input demand = {(P1,Choc,A): 100},
capacity = {(P1,Choc,L1): 10} and an empty rate dictionary, the LP optimum
puts everything on the fallback line; the redistributor finds no eligible
line and drops the mass, so the final AllocationTable covers 0 of the 100
demanded — the claim as stated (coverage by the final table) is false. -/
theorem C1_final_coverage_cex :
    IsOptimal dS0 cS0 rS0 XS0 ∧ dget dS0 ("P1", "Choc", "A") = some 100 ∧
    tableMass (results_df_adjusted dS0 cS0 rS0 XS0) "P1" "Choc" "A" = 0 ∧
    ¬ ((100 : ℚ) - 1 / 1000000 ≤
      tableMass (results_df_adjusted dS0 cS0 rS0 XS0) "P1" "Choc" "A") := by
  have hmass : tableMass (results_df_adjusted dS0 cS0 rS0 XS0) "P1" "Choc" "A" = 0 := by
    rw [adj_S0]
    rfl
  refine ⟨opt_XS0, by decide, hmass, ?_⟩
  rw [hmass]
  norm_num

/-- C2 (amended): for every input with non-negative capacities and an
optimal solver assignment, every non-fallback (period, category, line) with
a stated capacity has its RAW (pre-redistribution) allocated hours within
the stated capacity (exactly).  After redistribution the final table can
exceed the capacity (see the counterexample). -/
theorem C2_raw_capacity (demand : QMap3) (line_capacity : CapMap)
    (production_rate : QMap4) (X : K4 → ℚ) (hcap : ∀ e ∈ line_capacity, 0 ≤ e.2)
    (hopt : IsOptimal demand line_capacity production_rate X)
    (p c l : String) (v : WithTop ℚ) (hv : dget line_capacity (p, c, l) = some v)
    (hl : l ≠ fictitious_line) :
    ((tableHours (results_df demand line_capacity production_rate X) p c l : ℚ) : WithTop ℚ)
      ≤ v :=
  raw_capacity demand line_capacity production_rate X hcap hopt p c l v hv hl

theorem C2_raw_capacity_witness :
    (∀ e ∈ cS1, 0 ≤ e.2) ∧ IsOptimal dS1 cS1 rS1 X1 ∧
    dget cS1 ("P1", "Choc", "L1") = some ((10 : ℚ) : WithTop ℚ) ∧
    ("L1" : String) ≠ fictitious_line ∧
    ((tableHours (results_df dS1 cS1 rS1 X1) "P1" "Choc" "L1" : ℚ) : WithTop ℚ) ≤
      ((10 : ℚ) : WithTop ℚ) :=
  ⟨by decide, opt_X1, by decide, by decide,
    C2_raw_capacity dS1 cS1 rS1 X1 (by decide) opt_X1 "P1" "Choc" "L1" _ (by decide)
      (by decide)⟩

/-- C2 counterexample: demand = {(P1,Choc,A): 100}, capacity =
{(P1,Choc,L1): 10, (P1,Choc,L2): 0}, both lines with rate 5.  The optimum
uses L1 for 10 h and the fallback for the remaining 50 kg; redistribution splits the
fallback's 50 kg equally over L1 and L2, lifting L1 to 15 h in the final
table — above its stated 10 h capacity by far more than any tolerance. -/
theorem C2_final_capacity_cex :
    IsOptimal dS2 cS2 rS2 XS2 ∧
    dget cS2 ("P1", "Choc", "L1") = some ((10 : ℚ) : WithTop ℚ) ∧
    tableHours (results_df_adjusted dS2 cS2 rS2 XS2) "P1" "Choc" "L1" = 15 ∧
    ¬ ((15 : ℚ) ≤ 10 + 1 / 1000000) := by
  have hhours : tableHours (results_df_adjusted dS2 cS2 rS2 XS2) "P1" "Choc" "L1" = 15 := by
    rw [tableHours, adj_S2]
    simp +decide
  exact ⟨opt_XS2, by decide, hhours, by norm_num⟩

/-- C3: the claim (and spec §4.6) require the redistributor to conserve
mass whenever some eligible real line exists, but the code divides the
fallback mass by the number of lines with a rate ENTRY and then silently
drops the share of any line whose entry is 0 (`if rate and rate > 0`).
With rate(P1,Choc,L2,A) = 0, the 50 kg of fallback mass is split in two,
only L1's 25 kg is re-added, and 25 kg vanish. -/
theorem C3_mass_loss :
    IsOptimal dS3 cS3 rS3 XS3 ∧
    ((fallback_rows dS3 cS3 rS3 XS3).map (fun r => r.kg)).sum = 50 ∧
    ((adjusted_rows dS3 cS3 rS3 XS3).map (fun r => r.kg)).sum = 25 ∧
    ((25 : ℚ) ≠ 50) :=
  ⟨opt_XS3, fallback_mass_S3, adjusted_mass_S3, by norm_num⟩

/-- C4 (amended): no row of the final (post-redistribution, aggregated)
AllocationTable is on the fallback line, for every input and every solver
assignment.  The UtilizationTable, however, does contain fallback rows
(see the counterexample), because the reporting loop iterates over the
augmented capacity dictionary. -/
theorem C4_no_fallback_in_final (demand : QMap3) (line_capacity : CapMap)
    (production_rate : QMap4) (X : K4 → ℚ) :
    ∀ r ∈ results_df_adjusted demand line_capacity production_rate X,
      r.line ≠ fictitious_line :=
  final_no_fallback demand line_capacity production_rate X

theorem C4_no_fallback_in_final_witness :
    (⟨"P1", "Choc", "L1", "A", 20, 100⟩ : Row) ∈ results_df_adjusted dS1 cS1 rS1 X1 ∧
    (⟨"P1", "Choc", "L1", "A", 20, 100⟩ : Row).line ≠ fictitious_line := by
  have hmem : (⟨"P1", "Choc", "L1", "A", 20, 100⟩ : Row) ∈ results_df_adjusted dS1 cS1 rS1 X1 := by
    rw [adj_S1]
    exact List.mem_singleton.2 rfl
  exact ⟨hmem, C4_no_fallback_in_final dS1 cS1 rS1 X1 _ hmem⟩

/-- C4 counterexample: on the §8 scenario input, the Capacity/Demand table
produced from the augmented capacity dictionary contains a row whose Line is
the fallback sentinel (with NaN ratio), refuting the claim's statement that
no UtilizationTable row carries the sentinel. -/
theorem C4_fallback_in_util_cex :
    IsOptimal dS1 cS1 rS1 X1 ∧
    (("P1", "Choc", "Fallback_Line"), (none : Option (WithTop ℚ))) ∈
      capacity_demand_df dS1 cS1 rS1 X1 := by
  refine ⟨opt_X1, ?_⟩
  rw [util_S1]
  exact List.mem_cons_of_mem _ (List.mem_singleton.2 rfl)

/-- C5: for every input whose demand, capacity and rate values are all
non-negative (and finite), the constraint system built after the fallback
augmentation admits a feasible assignment: putting every demand on the
fallback line (rate 1/100, infinite capacity) satisfies all constraints,
so a correctly working solver can never report infeasibility. -/
theorem C5_always_feasible (demand : QMap3) (line_capacity : CapMap)
    (production_rate : QMap4) (hd : ∀ e ∈ demand, 0 ≤ e.2)
    (_hr : ∀ e ∈ production_rate, 0 ≤ e.2) (hcap : ∀ e ∈ line_capacity, 0 ≤ e.2)
    (_hfin : ∀ e ∈ line_capacity, e.2 ≠ ⊤) :
    ∃ X, Feasible demand line_capacity production_rate X :=
  ⟨fallbackAssignment demand, fallback_feasible demand line_capacity production_rate hd hcap⟩

theorem C5_always_feasible_witness :
    (∀ e ∈ dS1, 0 ≤ e.2) ∧ (∀ e ∈ rS1, 0 ≤ e.2) ∧ (∀ e ∈ cS1, 0 ≤ e.2) ∧
    (∀ e ∈ cS1, e.2 ≠ ⊤) ∧ ∃ X, Feasible dS1 cS1 rS1 X :=
  ⟨by decide, by decide, by decide, by decide,
    C5_always_feasible dS1 cS1 rS1 (by decide) (by decide) (by decide) (by decide)⟩

/-- C6 (amended): on demand = {(P1,Choc,A): 100}, capacity =
{(P1,Choc,L1): 10}, rate = {(P1,Choc,L1,A): 5}, the unique LP optimum gives
L1 its full 10 h (50 kg) and the fallback line 5000 h (50 kg).  Because L1
has a rate entry it IS an eligible line, so — contrary to the claim — the
fallback's 50 kg is redistributed onto L1 rather than recorded as an unmet
gap: the final table is a single L1 row with 20 h and 100 kg. -/
theorem C6_scenario_behavior (X : K4 → ℚ) (hopt : IsOptimal dS1 cS1 rS1 X) :
    results_df dS1 cS1 rS1 X =
      [⟨"P1", "Choc", "L1", "A", 10, 50⟩, ⟨"P1", "Choc", "Fallback_Line", "A", 5000, 50⟩] ∧
    results_df_adjusted dS1 cS1 rS1 X = [⟨"P1", "Choc", "L1", "A", 20, 100⟩] :=
  optimal_S1_tables X hopt

theorem C6_scenario_behavior_witness :
    IsOptimal dS1 cS1 rS1 X1 ∧
    (results_df dS1 cS1 rS1 X1 =
      [⟨"P1", "Choc", "L1", "A", 10, 50⟩, ⟨"P1", "Choc", "Fallback_Line", "A", 5000, 50⟩] ∧
    results_df_adjusted dS1 cS1 rS1 X1 = [⟨"P1", "Choc", "L1", "A", 20, 100⟩]) :=
  ⟨opt_X1, C6_scenario_behavior X1 opt_X1⟩

/-- C6 counterexample: at the optimal assignment of the scenario the final
AllocationTable is the single row (P1, Choc, L1, A, 20 h, 100 kg), not the
(10 h, 50 kg) row that the claim's "RedistributionGap of 50 kg rather than
redistributed onto L1" would imply; the full demand ends up attributed to
L1 and no mass is dropped. -/
theorem C6_no_gap_cex :
    IsOptimal dS1 cS1 rS1 X1 ∧
    results_df_adjusted dS1 cS1 rS1 X1 = [⟨"P1", "Choc", "L1", "A", 20, 100⟩] ∧
    results_df_adjusted dS1 cS1 rS1 X1 ≠ [⟨"P1", "Choc", "L1", "A", 10, 50⟩] ∧
    tableMass (results_df_adjusted dS1 cS1 rS1 X1) "P1" "Choc" "A" = 100 := by
  refine ⟨opt_X1, adj_S1, ?_, ?_⟩
  · rw [adj_S1]
    decide
  · rw [tableMass, adj_S1]
    simp +decide

/-- C7: when the external LP solver call fails, `solve_production_problem`
propagates the failure to the caller unchanged instead of returning tables;
when the solver returns an assignment, the three tables are returned. -/
theorem C7_failure_propagation (demand : QMap3) (line_capacity : CapMap)
    (production_rate : QMap4) (e : SolverFailure) (X : K4 → ℚ) :
    solve_production_problem demand line_capacity production_rate (Except.error e) =
      Except.error e ∧
    solve_production_problem demand line_capacity production_rate (Except.ok X) =
      Except.ok (results_df_adjusted demand line_capacity production_rate X,
        capacity_demand_df demand line_capacity production_rate X,
        results_df demand line_capacity production_rate X) :=
  ⟨rfl, rfl⟩

/-- C8 (amended): with non-negative rates and finite non-negative input
capacities, every Capacity/Demand value is NaN exactly when the
realized-demand-hours of its entry is zero; otherwise it equals
capacity / (realized-demand-hours + 1e-9), which is finite and NON-NEGATIVE —
zero exactly when the stated capacity is zero (so "strictly greater than
zero" in the claim fails for zero-capacity lines, see the counterexample). -/
theorem C8_ratio_domain (demand : QMap3) (line_capacity : CapMap)
    (production_rate : QMap4) (X : K4 → ℚ)
    (hr : ∀ e ∈ production_rate, 0 ≤ e.2)
    (hcapfin : ∀ e ∈ line_capacity, ∃ q : ℚ, e.2 = (q : WithTop ℚ) ∧ 0 ≤ q) :
    ∀ e ∈ augmentCapacity demand line_capacity,
      ((utilEntry demand production_rate
          (results_df_adjusted demand line_capacity production_rate X) e).2 = none ↔
        total_demand_hours demand production_rate
          (results_df_adjusted demand line_capacity production_rate X)
          e.1.1 e.1.2.1 e.1.2.2 = 0) ∧
      ∀ v, (utilEntry demand production_rate
          (results_df_adjusted demand line_capacity production_rate X) e).2 = some v →
        v = wdiv e.2 (total_demand_hours demand production_rate
          (results_df_adjusted demand line_capacity production_rate X)
          e.1.1 e.1.2.1 e.1.2.2 + eps) ∧
        v ≠ ⊤ ∧ 0 ≤ v ∧ (v = 0 ↔ e.2 = 0) := by
  intro e he
  have htdh0 : 0 ≤ total_demand_hours demand production_rate
      (results_df_adjusted demand line_capacity production_rate X) e.1.1 e.1.2.1 e.1.2.2 :=
    total_demand_hours_nonneg demand line_capacity production_rate X hr _ _ _
  constructor
  · rw [utilEntry]
    by_cases h : 0 < total_demand_hours demand production_rate
        (results_df_adjusted demand line_capacity production_rate X) e.1.1 e.1.2.1 e.1.2.2
    · rw [if_pos h]
      simp only [reduceCtorEq, false_iff]
      linarith
    · rw [if_neg h]
      simp only [true_iff]
      linarith [not_lt.1 h]
  · intro v hv
    rw [utilEntry] at hv
    by_cases h : 0 < total_demand_hours demand production_rate
        (results_df_adjusted demand line_capacity production_rate X) e.1.1 e.1.2.1 e.1.2.2
    · rw [if_pos h] at hv
      have hveq : v = wdiv e.2 (total_demand_hours demand production_rate
          (results_df_adjusted demand line_capacity production_rate X)
          e.1.1 e.1.2.1 e.1.2.2 + eps) := by
        exact (Option.some_inj.1 hv).symm
      rcases mem_augmentCapacity demand line_capacity e he with hmem | ⟨hfict, _⟩
      · rcases hcapfin e hmem with ⟨q, hq, hq0⟩
        have hden : 0 < total_demand_hours demand production_rate
            (results_df_adjusted demand line_capacity production_rate X)
            e.1.1 e.1.2.1 e.1.2.2 + eps := by
          have : (0 : ℚ) < eps := by norm_num [eps]
          linarith
        refine ⟨hveq, ?_, ?_, ?_⟩
        · rw [hveq, hq, wdiv_coe]
          exact WithTop.coe_ne_top
        · rw [hveq, hq, wdiv_coe, ← WithTop.coe_zero, WithTop.coe_le_coe]
          exact div_nonneg hq0 (le_of_lt hden)
        · rw [hveq, hq, wdiv_coe, ← WithTop.coe_zero, WithTop.coe_eq_coe, WithTop.coe_eq_coe]
          rw [div_eq_zero_iff]
          constructor
          · intro hcase
            rcases hcase with hq' | hden'
            · exact hq'
            · exact absurd hden' (ne_of_gt hden)
          · intro hq'
            exact Or.inl hq'
      · have hzero : total_demand_hours demand production_rate
            (results_df_adjusted demand line_capacity production_rate X)
            e.1.1 e.1.2.1 e.1.2.2 = 0 := by
          rw [hfict]
          exact total_demand_hours_fallback demand line_capacity production_rate X _ _
        rw [hzero] at h
        exact absurd h (lt_irrefl 0)
    · rw [if_neg h] at hv
      exact absurd hv (by simp)

theorem C8_ratio_domain_witness :
    (∀ e ∈ rS2, 0 ≤ e.2) ∧
    (("P1", "Choc", "L2"), ((0 : ℚ) : WithTop ℚ)) ∈ augmentCapacity dS2 cS2 ∧
    ((utilEntry dS2 rS2 (results_df_adjusted dS2 cS2 rS2 XS2)
        (("P1", "Choc", "L2"), ((0 : ℚ) : WithTop ℚ))).2 = none ↔
      total_demand_hours dS2 rS2 (results_df_adjusted dS2 cS2 rS2 XS2) "P1" "Choc" "L2" = 0) :=
  ⟨by decide, by decide,
    (C8_ratio_domain dS2 cS2 rS2 XS2 (by decide)
      (by
        intro e he
        rcases List.mem_cons.1 he with rfl | he'
        · exact ⟨10, rfl, by norm_num⟩
        · rcases List.mem_singleton.1 he' with rfl
          exact ⟨0, rfl, le_refl 0⟩)
      (("P1", "Choc", "L2"), ((0 : ℚ) : WithTop ℚ)) (by decide)).1⟩

/-- C8 counterexample: in scenario dS2 the line L2 has stated capacity 0 but
receives redistributed production, so its realized-demand-hours are 5 > 0
and its Capacity/Demand value is 0/(5 + 1e-9) = 0 — a value that is NOT
strictly greater than zero, refuting the claim's "finite value strictly
greater than zero". -/
theorem C8_zero_ratio_cex :
    IsOptimal dS2 cS2 rS2 XS2 ∧
    (("P1", "Choc", "L2"), some ((0 : ℚ) : WithTop ℚ)) ∈
      capacity_demand_df dS2 cS2 rS2 XS2 ∧
    ¬ ((0 : ℚ) : WithTop ℚ) > 0 := by
  refine ⟨opt_XS2, ?_, by simp⟩
  rw [util_S2]
  exact List.mem_cons_of_mem _ (List.mem_cons_self _ _)

/-- C9 (amended): the feasibility augmentation installs a rate entry of
1/100 for the fallback line at every demand triple and an infinite capacity
entry for the fallback line at every demand (period, category) pair, and it
leaves every entry whose line is NOT the fallback sentinel untouched (the
demand mapping is never written at all).  A pre-existing entry keyed with
the sentinel line itself IS overwritten — see the counterexample — so the
claim's "every pre-existing entry" must be weakened to non-sentinel keys. -/
theorem C9_augmentation_contract (demand : QMap3) (line_capacity : CapMap)
    (production_rate : QMap4) :
    (∀ k ∈ demand, dget (augmentRate demand production_rate)
      (k.1.1, k.1.2.1, fictitious_line, k.1.2.2) = some (1 / 100)) ∧
    (∀ k ∈ demand, dget (augmentCapacity demand line_capacity)
      (k.1.1, k.1.2.1, fictitious_line) = some ⊤) ∧
    (∀ p c l prod, l ≠ fictitious_line →
      dget (augmentRate demand production_rate) (p, c, l, prod) =
        dget production_rate (p, c, l, prod)) ∧
    (∀ p c l, l ≠ fictitious_line →
      dget (augmentCapacity demand line_capacity) (p, c, l) =
        dget line_capacity (p, c, l)) := by
  refine ⟨?_, ?_, ?_, ?_⟩
  · intro k hk
    exact augmentRate_at_demand_key demand production_rate k.1
      (List.mem_map.2 ⟨k, hk, rfl⟩)
  · intro k hk
    exact augmentCapacity_at_demand_key demand line_capacity k.1
      (List.mem_map.2 ⟨k, hk, rfl⟩)
  · intro p c l prod hl
    exact augmentRate_frame demand production_rate p c l prod hl
  · intro p c l hl
    exact augmentCapacity_frame demand line_capacity p c l hl

theorem C9_augmentation_contract_witness :
    ((("P1", "Choc", "A"), (100 : ℚ)) ∈ dS1 ∧ ("L1" : String) ≠ fictitious_line) ∧
    dget (augmentRate dS1 rS1) ("P1", "Choc", fictitious_line, "A") = some (1 / 100) ∧
    dget (augmentCapacity dS1 cS1) ("P1", "Choc", fictitious_line) = some ⊤ ∧
    dget (augmentRate dS1 rS1) ("P1", "Choc", "L1", "A") = dget rS1 ("P1", "Choc", "L1", "A") ∧
    dget (augmentCapacity dS1 cS1) ("P1", "Choc", "L1") = dget cS1 ("P1", "Choc", "L1") :=
  ⟨⟨by decide, by decide⟩,
    (C9_augmentation_contract dS1 cS1 rS1).1 (("P1", "Choc", "A"), 100) (by decide),
    (C9_augmentation_contract dS1 cS1 rS1).2.1 (("P1", "Choc", "A"), 100) (by decide),
    (C9_augmentation_contract dS1 cS1 rS1).2.2.1 "P1" "Choc" "L1" "A" (by decide),
    (C9_augmentation_contract dS1 cS1 rS1).2.2.2 "P1" "Choc" "L1" (by decide)⟩

/-- C9 counterexample: if the caller's rate dictionary already contains an
entry keyed with the fallback sentinel line for a demanded triple (value 5),
the augmentation overwrites it with 1/100; likewise a pre-existing sentinel
capacity entry (value 3) is overwritten with infinity.  So the claim that
EVERY pre-existing entry keeps its original value is false. -/
theorem C9_overwrite_cex :
    dget rC9 ("P1", "Choc", "Fallback_Line", "A") = some 5 ∧
    dget (augmentRate dC9 rC9) ("P1", "Choc", "Fallback_Line", "A") = some (1 / 100) ∧
    ¬ ((1 / 100 : ℚ) = 5) ∧
    dget cC9 ("P1", "Choc", "Fallback_Line") = some ((3 : ℚ) : WithTop ℚ) ∧
    dget (augmentCapacity dC9 cC9) ("P1", "Choc", "Fallback_Line") = some ⊤ ∧
    ¬ ((⊤ : WithTop ℚ) = ((3 : ℚ) : WithTop ℚ)) := by
  refine ⟨by decide, ?_, by norm_num, by decide, ?_, by simp⟩
  · simp +decide [augmentRate, dC9, rC9, dset, dget, fictitious_line]
  · simp +decide [augmentCapacity, dC9, cC9, dset, dget, fictitious_line]

/-- C10: the Capacity/Demand table is exactly the map, over the items of the
augmented capacity dictionary, of the entry whose realized-demand-hours is
the sum over ALL final-table rows matching the entry's Period and Line —
the row's Category is not tested — of `kg / rate` with the rate looked up
under the ENTRY's category at (p, c, l, product), contributing zero whenever
that rate is absent or not positive.  In particular a row of one category
can enter the ratio of a capacity entry of another category sharing the
same period and line. -/
theorem C10_cross_category_hours (demand : QMap3) (line_capacity : CapMap)
    (production_rate : QMap4) (X : K4 → ℚ) :
    capacity_demand_df demand line_capacity production_rate X =
      (augmentCapacity demand line_capacity).map (fun e =>
        (e.1,
          if 0 < ((results_df_adjusted demand line_capacity production_rate X).map (fun r =>
              if (r.period = e.1.1 ∧ r.line = e.1.2.2) ∧
                  0 < rateGet (augmentRate demand production_rate)
                    (e.1.1, e.1.2.1, e.1.2.2, r.product) then
                r.kg / rateGet (augmentRate demand production_rate)
                  (e.1.1, e.1.2.1, e.1.2.2, r.product)
              else 0)).sum then
            some (wdiv e.2
              (((results_df_adjusted demand line_capacity production_rate X).map (fun r =>
                if (r.period = e.1.1 ∧ r.line = e.1.2.2) ∧
                    0 < rateGet (augmentRate demand production_rate)
                      (e.1.1, e.1.2.1, e.1.2.2, r.product) then
                  r.kg / rateGet (augmentRate demand production_rate)
                    (e.1.1, e.1.2.1, e.1.2.2, r.product)
                else 0)).sum + eps))
          else none)) := by
  rw [capacity_demand_df]
  refine List.map_congr_left (fun e _ => ?_)
  rw [utilEntry, total_demand_hours_char]

end Solver
